import Mathlib

/-!
Scalene `Repo`: a fixed-size slab of equal-sized object slots.

Shallow embedding of `src/include/repo.hpp`.

* `unsigned int` fields are natural numbers reduced modulo `2^32`,
  `unsigned long` / `size_t` values are reduced modulo `2^64` (LP64).
* Addresses are natural numbers, `nullptr` is address `0`.
* `assert (c)` is embedded as a check that ends the call with a `Fault`
  when `c` is false; integer division by zero (undefined behaviour) is a
  `Fault` as well.
* `sizeof(RepoHeader<Size>)` is the parameter `hdr` of the constructors
  (`sizeofRepoHeader = 48` with the LP64 field layout of the class).
-/

namespace Scalene

/-! ## Machine constants -/

/-- Number of values of an `unsigned int`. -/
def UINT_MOD : Nat := 2 ^ 32

/-- Number of values of an `unsigned long` (and of `size_t`). -/
def ULONG_MOD : Nat := 2 ^ 64

/-- The value of `sizeof(unsigned long)`. -/
def sizeofULong : Nat := 8

/-- The enumerator `MAGIC_NUMBER = 0xCAFEBABE`. -/
def MAGIC_NUMBER : Nat := 0xCAFEBABE

/-- The enumerator `Alignment = 2 * sizeof(unsigned long)`. -/
def Alignment : Nat := 2 * sizeofULong

/-- The null pointer. -/
def nullptr : Nat := 0

/-- Size of the header with the LP64 layout: four `unsigned int` fields, then
`_magic`, `_dummy1`, `_next` and `_dummy` of eight bytes each. -/
def sizeofRepoHeader : Nat := 4 * 4 + 8 + 8 + 8 + 8

/-- Ways in which a call can end without returning. -/
inductive Fault where
  /-- integer division by zero in the constructor's initialiser list: undefined
  behaviour, for which no result is defined -/
  | divisionByZero
  /-- the check `assert(isValid())` -/
  | assertIsValid
  /-- the check `assert (sz == getObjectSize())` -/
  | assertObjectSize
  /-- the check `assert(inBounds(ptr))` -/
  | assertInBounds
  /-- the check `assert((uintptr_t) ptr % Alignment == 0)` -/
  | assertAlignment
  deriving DecidableEq

/-- Result of a call: a value, or the fault that ended it. -/
inductive Outcome (α : Type) where
  | ok (a : α)
  | fault (f : Fault)
  deriving DecidableEq

/-! ## `RepoHeader<Size>` -/

/-- The data members of `RepoHeader` that the code reads or writes
(`_dummy1` and `_dummy` are never touched). -/
structure RepoHeader where
  objectSize : Nat
  numberOfObjects : Nat
  allocated : Nat
  freed : Nat
  magic : Nat
  next : Nat
  deriving DecidableEq

namespace RepoHeader

/-- The constructor `RepoHeader(unsigned long objectSize)`: `Size` is the
template argument, `hdr` is `sizeof(*this)`.  The subtraction and the
division are `unsigned long` operations; the two results are narrowed to the
`unsigned int` members.  The source divides without a check: for
`objectSize = 0` the division is undefined behaviour, no header is defined, and
no statement below concludes anything from that case. -/
def new (Size hdr objectSize : Nat) : Outcome RepoHeader :=
  if objectSize = 0 then .fault .divisionByZero
  else .ok
    { allocated := 0
      freed := 0
      magic := MAGIC_NUMBER
      next := nullptr
      objectSize := objectSize % UINT_MOD
      numberOfObjects := (((Size + ULONG_MOD - hdr) % ULONG_MOD) / objectSize) % UINT_MOD }

def getObjectSize (h : RepoHeader) : Nat := h.objectSize

def getNumberOfObjects (h : RepoHeader) : Nat := h.numberOfObjects

def setNext (h : RepoHeader) (p : Nat) : RepoHeader := { h with next := p }

def getNext (h : RepoHeader) : Nat := h.next

def getAllocated (h : RepoHeader) : Nat := h.allocated

/-- The increment `_allocated++` on an `unsigned int`. -/
def incAllocated (h : RepoHeader) : RepoHeader :=
  { h with allocated := (h.allocated + 1) % UINT_MOD }

def getFreed (h : RepoHeader) : Nat := h.freed

/-- The private `clear()`. -/
def clear (h : RepoHeader) : RepoHeader := { h with allocated := 0, freed := 0 }

/-- The method `incFreed()`: `_freed++`, then reset and `true` when the new
value equals `_numberOfObjects`. -/
def incFreed (h : RepoHeader) : Bool × RepoHeader :=
  let h1 := { h with freed := (h.freed + 1) % UINT_MOD }
  if h1.freed = h1.numberOfObjects then (true, h1.clear) else (false, h1)

def isFull (h : RepoHeader) : Bool := h.allocated = h.numberOfObjects

def isEmpty (h : RepoHeader) : Bool :=
  h.freed = h.numberOfObjects || h.allocated = 0

def isValid (h : RepoHeader) : Bool := h.magic = MAGIC_NUMBER

/-- The method `getBaseSize()`. -/
def getBaseSize (h : RepoHeader) : Outcome Nat :=
  if h.isValid then .ok h.objectSize else .fault .assertIsValid

end RepoHeader

/-! ## `Repo<Size>` -/

/-- A `Repo` is its `RepoHeader` base together with the address of
`_buffer[0]`; the bytes of the buffer are never read or written here. -/
structure Repo extends RepoHeader where
  bufferStart : Nat
  deriving DecidableEq

namespace Repo

/-- The constructor `Repo(unsigned long objectSize)` for an object placed at
address `thisAddr`; `_buffer` follows the header.  The compile-time check
`static_assert(sizeof(*this) == Size)` is a property of the object layout and
is not part of this function: `Repo<Size>` exists only for the sizes that pass
it (with the LP64 layout, `Size` at least 48 and a multiple of 8), and the
concrete repos used below, of sizes 104, 240, 4096, `2^33 + 48` and
`2^33 + 80`, are of that kind. -/
def new (Size hdr thisAddr objectSize : Nat) : Outcome Repo :=
  match RepoHeader.new Size hdr objectSize with
  | .ok h => .ok { toRepoHeader := h, bufferStart := thisAddr + hdr }
  | .fault f => .fault f

/-- The method `inBounds(ptr)`.  `(getNumberOfObjects()-1) * getObjectSize()`
is a product of two `unsigned int` values. -/
def inBounds (r : Repo) (ptr : Nat) : Outcome Bool :=
  if r.isValid then
    .ok (decide (r.bufferStart ≤ ptr) &&
      decide (ptr ≤ r.bufferStart +
        (((r.getNumberOfObjects + UINT_MOD - 1) % UINT_MOD) * r.getObjectSize) % UINT_MOD))
  else .fault .assertIsValid

/-- The method `malloc(sz)`.  The index `getAllocated() * sz` is a `size_t`
product. -/
def malloc (r : Repo) (sz : Nat) : Outcome (Nat × Repo) :=
  if r.isValid then
    if !r.isFull then
      if sz = r.getObjectSize then
        let ptr := r.bufferStart + (r.getAllocated * sz) % ULONG_MOD
        match r.inBounds ptr with
        | .ok true =>
          if ptr % Alignment = 0 then
            .ok (ptr, { r with toRepoHeader := r.toRepoHeader.incAllocated })
          else .fault .assertAlignment
        | .ok false => .fault .assertInBounds
        | .fault f => .fault f
      else .fault .assertObjectSize
    else .ok (nullptr, r)
  else .fault .assertIsValid

/-- The method `getSize(ptr)`. -/
def getSize (r : Repo) (_ptr : Nat) : Outcome Nat :=
  if r.isValid then r.getBaseSize else .ok 0

/-- The method `free(ptr)`. -/
def free (r : Repo) (ptr : Nat) : Outcome (Bool × Repo) :=
  if r.isValid then
    match r.inBounds ptr with
    | .ok true =>
      let res := r.toRepoHeader.incFreed
      .ok (res.1, { r with toRepoHeader := res.2 })
    | .ok false => .fault .assertInBounds
    | .fault f => .fault f
  else .fault .assertIsValid

end Repo

/-! ## Sequences of calls -/

/-- A call made by a client of a repo. -/
inductive Op where
  | malloc (sz : Nat)
  | free (ptr : Nat)
  deriving DecidableEq

/-- What a call returned. -/
inductive Ret where
  | ptr (p : Nat)
  | flag (b : Bool)
  deriving DecidableEq

/-- One call. -/
def step (r : Repo) : Op → Outcome (Ret × Repo)
  | .malloc sz =>
    match r.malloc sz with
    | .ok (p, r1) => .ok (.ptr p, r1)
    | .fault f => .fault f
  | .free p =>
    match r.free p with
    | .ok (b, r1) => .ok (.flag b, r1)
    | .fault f => .fault f

/-- A sequence of calls, with the list of the values returned. -/
def run (r : Repo) : List Op → Outcome (List Ret × Repo)
  | [] => .ok ([], r)
  | op :: ops =>
    match step r op with
    | .ok (x, r1) =>
      match run r1 ops with
      | .ok (xs, r2) => .ok (x :: xs, r2)
      | .fault f => .fault f
    | .fault f => .fault f

/-- Number of successful allocations (non-null results) since the last
reset (a `free` that returned `true`), starting from `a`. -/
def allocsSinceReset (a : Nat) : List Ret → Nat
  | [] => a
  | .ptr p :: xs => allocsSinceReset (if p = nullptr then a else a + 1) xs
  | .flag true :: xs => allocsSinceReset 0 xs
  | .flag false :: xs => allocsSinceReset a xs

/-- Number of `free` calls since the last reset, starting from `f`. -/
def freesSinceReset (f : Nat) : List Ret → Nat
  | [] => f
  | .ptr _ :: xs => freesSinceReset f xs
  | .flag true :: xs => freesSinceReset 0 xs
  | .flag false :: xs => freesSinceReset (f + 1) xs

/-- Well-formed use of a repo: `free` is called only while `freed < allocated`,
that is, only while some allocated object is still live. -/
def wellFormed (r : Repo) : List Op → Bool
  | [] => true
  | op :: ops =>
    (match op with
      | .free _ => decide (r.getFreed < r.getAllocated)
      | .malloc _ => true) &&
    (match step r op with
      | .ok (_, r1) => wellFormed r1 ops
      | .fault _ => true)

/-- The state `r` can be reached from `r0` by a sequence of calls that all
returned. -/
def Reachable (r0 r : Repo) : Prop := ∃ ops rets, run r0 ops = .ok (rets, r)

/-- Facts about the members that hold in every state of a constructed repo
with capacity `n`, object size `os` and buffer address `b`. -/
structure Inv (n os b : Nat) (r : Repo) : Prop where
  magic : r.magic = MAGIC_NUMBER
  nobj : r.numberOfObjects = n
  osz : r.objectSize = os
  buf : r.bufferStart = b
  alloc_le : r.allocated ≤ n
  freed_lt : r.freed < n ∨ (n = 0 ∧ r.freed < UINT_MOD)
  n_lt : n < UINT_MOD
  os_lt : os < UINT_MOD

/-! ## Basic facts about single calls -/

theorem new_ok_inv {Size hdr t os : Nat} {r : Repo} (h : Repo.new Size hdr t os = .ok r) :
    os ≠ 0 ∧ r.allocated = 0 ∧ r.freed = 0 ∧ r.magic = MAGIC_NUMBER ∧ r.next = nullptr ∧
      r.objectSize = os % UINT_MOD ∧
      r.numberOfObjects = (((Size + ULONG_MOD - hdr) % ULONG_MOD) / os) % UINT_MOD ∧
      r.bufferStart = t + hdr := by
  unfold Repo.new RepoHeader.new at h
  by_cases h0 : os = 0
  · simp [h0] at h
  · simp only [h0, if_false] at h
    injection h with h
    subst h
    simp [h0]

theorem new_ok_of_pos (Size hdr t os : Nat) (h0 : os ≠ 0) :
    ∃ r, Repo.new Size hdr t os = .ok r := by
  unfold Repo.new RepoHeader.new
  simp [h0]

theorem inv_new {Size hdr t os : Nat} {r : Repo} (h : Repo.new Size hdr t os = .ok r) :
    Inv r.numberOfObjects r.objectSize r.bufferStart r := by
  obtain ⟨_, ha, hf, hm, _, ho, hn, _⟩ := new_ok_inv h
  have hpos : 0 < UINT_MOD := by decide
  refine ⟨hm, rfl, rfl, rfl, by omega, ?_, ?_, ?_⟩
  · rw [hf]
    rcases Nat.eq_zero_or_pos r.numberOfObjects with h1 | h1
    · exact Or.inr ⟨h1, hpos⟩
    · exact Or.inl h1
  · rw [hn]; exact Nat.mod_lt _ hpos
  · rw [ho]; exact Nat.mod_lt _ hpos

theorem malloc_ok_inv {r r1 : Repo} {sz p : Nat} (h : r.malloc sz = .ok (p, r1)) :
    r.magic = MAGIC_NUMBER ∧
    ((r.allocated = r.numberOfObjects ∧ p = nullptr ∧ r1 = r) ∨
     (r.allocated ≠ r.numberOfObjects ∧ sz = r.objectSize ∧
      p = r.bufferStart + (r.allocated * sz) % ULONG_MOD ∧
      r.inBounds p = .ok true ∧ p % Alignment = 0 ∧
      r1 = { r with toRepoHeader := r.toRepoHeader.incAllocated })) := by
  unfold Repo.malloc at h
  by_cases hv : r.isValid = true
  · have hm : r.magic = MAGIC_NUMBER := by simpa [RepoHeader.isValid] using hv
    refine ⟨hm, ?_⟩
    simp only [hv, if_true] at h
    by_cases hf : r.isFull = true
    · left
      simp only [hf, Bool.not_true, Bool.false_eq_true, if_false] at h
      injection h with h
      injection h with h1 h2
      exact ⟨by simpa [RepoHeader.isFull] using hf, h1.symm, h2.symm⟩
    · right
      have hne : r.allocated ≠ r.numberOfObjects := by simpa [RepoHeader.isFull] using hf
      simp only [hf, Bool.not_false, if_true] at h
      by_cases hs : sz = r.getObjectSize
      · simp only [hs, if_true] at h
        split at h
        · rename_i hb
          split at h
          · rename_i ha
            injection h with h
            injection h with h1 h2
            subst hs
            refine ⟨hne, rfl, h1.symm, ?_, ?_, h2.symm⟩
            · rw [← h1]; exact hb
            · rw [← h1]; exact ha
          · cases h
        · cases h
        · cases h
      · simp [hs] at h
  · simp [hv] at h

theorem incFreed_eq (h : RepoHeader) :
    h.incFreed =
      if (h.freed + 1) % UINT_MOD = h.numberOfObjects then
        (true, { h with allocated := 0, freed := 0 })
      else (false, { h with freed := (h.freed + 1) % UINT_MOD }) := by
  unfold RepoHeader.incFreed RepoHeader.clear
  by_cases hc : (h.freed + 1) % UINT_MOD = h.numberOfObjects <;> simp [hc]

theorem free_ok_inv {r r1 : Repo} {p : Nat} {b : Bool} (h : r.free p = .ok (b, r1)) :
    r.magic = MAGIC_NUMBER ∧ r.inBounds p = .ok true ∧
      b = r.toRepoHeader.incFreed.1 ∧
      r1 = { r with toRepoHeader := r.toRepoHeader.incFreed.2 } := by
  unfold Repo.free at h
  by_cases hv : r.isValid = true
  · have hm : r.magic = MAGIC_NUMBER := by simpa [RepoHeader.isValid] using hv
    simp only [hv, if_true] at h
    split at h
    · rename_i hb
      injection h with h
      injection h with h1 h2
      exact ⟨hm, hb, h1.symm, h2.symm⟩
    · cases h
    · cases h
  · simp [hv] at h

theorem free_of_inBounds {r : Repo} {p : Nat} (hb : r.inBounds p = .ok true) :
    r.free p =
      .ok (r.toRepoHeader.incFreed.1, { r with toRepoHeader := r.toRepoHeader.incFreed.2 }) := by
  have hv : r.isValid = true := by
    by_cases hv : r.isValid = true
    · exact hv
    · simp [Repo.inBounds, hv] at hb
  unfold Repo.free
  simp [hv, hb]

theorem inBounds_congr {r r1 : Repo} (hm : r1.magic = r.magic)
    (hn : r1.numberOfObjects = r.numberOfObjects) (ho : r1.objectSize = r.objectSize)
    (hb : r1.bufferStart = r.bufferStart) (p : Nat) : r1.inBounds p = r.inBounds p := by
  unfold Repo.inBounds RepoHeader.isValid RepoHeader.getNumberOfObjects
    RepoHeader.getObjectSize
  rw [hm, hn, ho, hb]

theorem inv_malloc {n os b : Nat} {r r1 : Repo} {sz p : Nat} (hi : Inv n os b r)
    (h : r.malloc sz = .ok (p, r1)) : Inv n os b r1 := by
  obtain ⟨_, h1 | h1⟩ := malloc_ok_inv h
  · rw [h1.2.2]; exact hi
  · obtain ⟨hne, _, _, _, _, hr⟩ := h1
    subst hr
    have hle := hi.alloc_le
    have hn := hi.nobj
    have hlt := hi.n_lt
    refine ⟨hi.magic, hi.nobj, hi.osz, hi.buf, ?_, hi.freed_lt, hi.n_lt, hi.os_lt⟩
    show (r.allocated + 1) % UINT_MOD ≤ n
    have : r.allocated + 1 < UINT_MOD := by omega
    rw [Nat.mod_eq_of_lt this]
    omega

theorem inv_free {n os b : Nat} {r r1 : Repo} {p : Nat} {x : Bool} (hi : Inv n os b r)
    (h : r.free p = .ok (x, r1)) : Inv n os b r1 := by
  obtain ⟨_, _, _, hr⟩ := free_ok_inv h
  subst hr
  rw [incFreed_eq]
  have hn := hi.nobj
  have hlt := hi.n_lt
  have hpos : 0 < UINT_MOD := by decide
  by_cases hc : (r.freed + 1) % UINT_MOD = r.numberOfObjects
  · simp only [hc, if_true]
    refine ⟨hi.magic, hi.nobj, hi.osz, hi.buf, Nat.zero_le _, ?_, hi.n_lt, hi.os_lt⟩
    show 0 < n ∨ (n = 0 ∧ 0 < UINT_MOD)
    rcases Nat.eq_zero_or_pos n with h0 | h0
    · exact Or.inr ⟨h0, hpos⟩
    · exact Or.inl h0
  · simp only [hc, if_false]
    refine ⟨hi.magic, hi.nobj, hi.osz, hi.buf, hi.alloc_le, ?_, hi.n_lt, hi.os_lt⟩
    show (r.freed + 1) % UINT_MOD < n ∨ (n = 0 ∧ (r.freed + 1) % UINT_MOD < UINT_MOD)
    rcases hi.freed_lt with hf | hf
    · left
      have h1 : r.freed + 1 < UINT_MOD := by omega
      rw [Nat.mod_eq_of_lt h1] at hc ⊢
      omega
    · exact Or.inr ⟨hf.1, Nat.mod_lt _ hpos⟩

theorem step_malloc_ok {r r1 : Repo} {sz : Nat} {x : Ret}
    (h : step r (.malloc sz) = .ok (x, r1)) : ∃ p, x = .ptr p ∧ r.malloc sz = .ok (p, r1) := by
  simp only [step] at h
  split at h
  · rename_i p r2 hm
    injection h with h
    injection h with h1 h2
    exact ⟨p, h1.symm, by rw [hm, h2]⟩
  · cases h

theorem step_free_ok {r r1 : Repo} {q : Nat} {x : Ret}
    (h : step r (.free q) = .ok (x, r1)) : ∃ b, x = .flag b ∧ r.free q = .ok (b, r1) := by
  simp only [step] at h
  split at h
  · rename_i b r2 hm
    injection h with h
    injection h with h1 h2
    exact ⟨b, h1.symm, by rw [hm, h2]⟩
  · cases h

theorem inv_step {n os b : Nat} {r r1 : Repo} {op : Op} {x : Ret} (hi : Inv n os b r)
    (h : step r op = .ok (x, r1)) : Inv n os b r1 := by
  cases op with
  | malloc sz =>
    obtain ⟨p, _, hm⟩ := step_malloc_ok h
    exact inv_malloc hi hm
  | free q =>
    obtain ⟨y, _, hm⟩ := step_free_ok h
    exact inv_free hi hm

theorem run_cons_ok {r r2 : Repo} {op : Op} {ops : List Op} {rets : List Ret}
    (h : run r (op :: ops) = .ok (rets, r2)) :
    ∃ x r1 xs, step r op = .ok (x, r1) ∧ run r1 ops = .ok (xs, r2) ∧ rets = x :: xs := by
  unfold run at h
  split at h
  · rename_i x r1 hs
    split at h
    · rename_i xs r3 hr
      injection h with h
      injection h with h1 h2
      exact ⟨x, r1, xs, hs, by rw [hr, h2], h1.symm⟩
    · cases h
  · cases h

theorem run_cons_of {r r1 r2 : Repo} {op : Op} {ops : List Op} {x : Ret} {xs : List Ret}
    (h1 : step r op = .ok (x, r1)) (h2 : run r1 ops = .ok (xs, r2)) :
    run r (op :: ops) = .ok (x :: xs, r2) := by
  simp [run, h1, h2]

theorem run_append_of {r r1 r2 : Repo} {ops1 ops2 : List Op} {xs ys : List Ret}
    (h1 : run r ops1 = .ok (xs, r1)) (h2 : run r1 ops2 = .ok (ys, r2)) :
    run r (ops1 ++ ops2) = .ok (xs ++ ys, r2) := by
  induction ops1 generalizing r xs with
  | nil =>
    simp only [run] at h1
    injection h1 with h1
    injection h1 with ha hb
    subst ha; subst hb
    simpa using h2
  | cons op ops ih =>
    obtain ⟨x, ra, zs, hs, hr, he⟩ := run_cons_ok h1
    subst he
    exact run_cons_of hs (ih hr)

theorem inv_run {n os b : Nat} {r r1 : Repo} {ops : List Op} {rets : List Ret}
    (hi : Inv n os b r) (h : run r ops = .ok (rets, r1)) : Inv n os b r1 := by
  induction ops generalizing r rets with
  | nil =>
    simp only [run] at h
    injection h with h
    injection h with _ hb
    rw [← hb]; exact hi
  | cons op ops ih =>
    obtain ⟨x, ra, zs, hs, hr, _⟩ := run_cons_ok h
    exact ih (inv_step hi hs) hr

theorem inv_reachable {Size hdr t os : Nat} {r0 r : Repo}
    (h0 : Repo.new Size hdr t os = .ok r0) (hr : Reachable r0 r) :
    Inv r0.numberOfObjects r0.objectSize r0.bufferStart r := by
  obtain ⟨ops, rets, h⟩ := hr
  exact inv_run (inv_new h0) h

/-! ## Allocation until the repo is full -/

theorem malloc_full {r : Repo} (sz : Nat) (hv : r.isValid = true) (hf : r.isFull = true) :
    r.malloc sz = .ok (nullptr, r) := by
  unfold Repo.malloc
  simp [hv, hf]

theorem mul_lt_ulong {a s : Nat} (ha : a < UINT_MOD) (hs : s < UINT_MOD) :
    a * s < ULONG_MOD := by
  have h : a * s < UINT_MOD * UINT_MOD := Nat.mul_lt_mul'' ha hs
  have e : UINT_MOD * UINT_MOD = ULONG_MOD := by decide
  omega

theorem mul_mod_align (a : Nat) {s : Nat} (hs : s % Alignment = 0) : (a * s) % Alignment = 0 := by
  rw [Nat.mul_mod, hs]
  simp

/-- A slot index below the capacity passes every check of `malloc`. -/
theorem malloc_slot {n os b : Nat} {r : Repo} (hi : Inv n os b r) (ha : r.allocated < n)
    (hw : (n - 1) * os < UINT_MOD) (hb : b % Alignment = 0) (hs : os % Alignment = 0) :
    r.malloc os =
      .ok (b + r.allocated * os,
        { r with toRepoHeader := { r.toRepoHeader with allocated := r.allocated + 1 } }) := by
  have hv : r.isValid = true := by simp [RepoHeader.isValid, hi.magic]
  have hnf : r.isFull = false := by
    have : r.allocated ≠ r.numberOfObjects := by rw [hi.nobj]; omega
    simp [RepoHeader.isFull, this]
  have hn := hi.n_lt
  have hmul : r.allocated * os < ULONG_MOD := mul_lt_ulong (by omega) hi.os_lt
  have hle : r.allocated * os ≤ (n - 1) * os := Nat.mul_le_mul_right os (by omega)
  have hn1 : (n + UINT_MOD - 1) % UINT_MOD = n - 1 := by
    have e : n + UINT_MOD - 1 = (n - 1) + UINT_MOD := by omega
    rw [e, Nat.add_mod_right, Nat.mod_eq_of_lt (by omega)]
  have hib : r.inBounds (b + r.allocated * os) = .ok true := by
    unfold Repo.inBounds
    simp only [hv, if_true, RepoHeader.getNumberOfObjects, RepoHeader.getObjectSize, hi.nobj,
      hi.osz, hi.buf, hn1, Nat.mod_eq_of_lt hw]
    simp [hle]
  have hal : (b + r.allocated * os) % Alignment = 0 := by
    have := mul_mod_align r.allocated hs
    have hA : Alignment = 16 := by decide
    rw [hA] at this hb ⊢
    omega
  have hinc : (r.allocated + 1) % UINT_MOD = r.allocated + 1 := Nat.mod_eq_of_lt (by omega)
  unfold Repo.malloc
  simp only [hv, hnf, if_true, Bool.not_false, RepoHeader.getObjectSize, hi.osz,
    RepoHeader.getAllocated, hi.buf, Nat.mod_eq_of_lt hmul, hib, hal,
    RepoHeader.incAllocated, hinc]

/-- Consecutive allocations hand out consecutive slots. -/
theorem run_mallocs {n os b : Nat} (hw : (n - 1) * os < UINT_MOD) (hb : b % Alignment = 0)
    (hs : os % Alignment = 0) (k : Nat) :
    ∀ r : Repo, Inv n os b r → r.allocated + k ≤ n →
      ∃ r1, run r (List.replicate k (.malloc os)) =
          .ok ((List.range k).map (fun i => Ret.ptr (b + (r.allocated + i) * os)), r1) ∧
        r1.allocated = r.allocated + k ∧ r1.freed = r.freed ∧ Inv n os b r1 := by
  induction k with
  | zero =>
    intro r hi _
    exact ⟨r, by simp [run], by simp, rfl, hi⟩
  | succ k ih =>
    intro r hi hk
    have hm := malloc_slot hi (by omega) hw hb hs
    have hst : step r (.malloc os) = .ok (.ptr (b + r.allocated * os),
        { r with toRepoHeader := { r.toRepoHeader with allocated := r.allocated + 1 } }) := by
      simp [step, hm]
    have hi1 := inv_step hi hst
    obtain ⟨r1, hr, ha, hf, hi2⟩ := ih _ hi1 (by show r.allocated + 1 + k ≤ n; omega)
    refine ⟨r1, ?_, ?_, ?_, hi2⟩
    · rw [List.replicate_succ, List.range_succ_eq_map, List.map_cons, List.map_map,
        run_cons_of hst hr, Nat.add_zero]
      refine congrArg (fun l => Outcome.ok (Ret.ptr (b + r.allocated * os) :: l, r1)) ?_
      apply List.map_congr_left
      intro i _
      show Ret.ptr (b + (r.allocated + 1 + i) * os) = Ret.ptr (b + (r.allocated + (i + 1)) * os)
      rw [Nat.add_right_comm, Nat.add_assoc]
    · rw [ha]; show r.allocated + 1 + k = r.allocated + (k + 1); omega
    · rw [hf]

/-! ## Claims C1 and C2 -/

/-- C1 (counterexample): with `Size = 4096` and the 48-byte header, constructing
with `objectSize = 2^32` stores the object size `0`, not `2^32`; and with
`Size = 2^33 + 48` and `objectSize = 1` the stored capacity is `0`, not `2^33`. -/
theorem C1_counterexample_narrowing :
    (∃ h, RepoHeader.new 4096 sizeofRepoHeader 4294967296 = .ok h ∧
      h.getObjectSize = 0 ∧ h.getObjectSize ≠ 4294967296) ∧
    (∃ h, RepoHeader.new 8589934640 sizeofRepoHeader 1 = .ok h ∧
      h.getNumberOfObjects = 0 ∧
      h.getNumberOfObjects ≠ (8589934640 - sizeofRepoHeader) / 1) := by
  refine ⟨⟨_, rfl, by decide, by decide⟩, ⟨_, rfl, by decide, by decide⟩⟩

/-- C1 (amended): for a region size `Size` above the header size and below
`2^64` and every `objectSize > 0`, the constructor returns a header whose
`getNumberOfObjects()` is `floor((Size - hdr) / objectSize)` reduced modulo
`2^32` and whose `getObjectSize()` is `objectSize` reduced modulo `2^32`; the
two are the unreduced values whenever these are below `2^32`.  Both counters
start at zero. -/
theorem C1_new_capacity (Size hdr objectSize : Nat) (hS : hdr < Size)
    (h64 : Size < ULONG_MOD) (hpos : 0 < objectSize) :
    ∃ h, RepoHeader.new Size hdr objectSize = .ok h ∧
      h.getNumberOfObjects = ((Size - hdr) / objectSize) % UINT_MOD ∧
      h.getObjectSize = objectSize % UINT_MOD ∧
      ((Size - hdr) / objectSize < UINT_MOD →
        h.getNumberOfObjects = (Size - hdr) / objectSize) ∧
      (objectSize < UINT_MOD → h.getObjectSize = objectSize) ∧
      h.getAllocated = 0 ∧ h.getFreed = 0 := by
  have hsub : (Size + ULONG_MOD - hdr) % ULONG_MOD = Size - hdr := by
    have e : Size + ULONG_MOD - hdr = (Size - hdr) + ULONG_MOD := by omega
    rw [e, Nat.add_mod_right, Nat.mod_eq_of_lt (by omega)]
  have h0 : objectSize ≠ 0 := by omega
  refine ⟨⟨objectSize % UINT_MOD,
      (((Size + ULONG_MOD - hdr) % ULONG_MOD) / objectSize) % UINT_MOD, 0, 0, MAGIC_NUMBER,
      nullptr⟩, by simp only [RepoHeader.new, h0, if_false], ?_, rfl, ?_, ?_, rfl, rfl⟩
  · show ((Size + ULONG_MOD - hdr) % ULONG_MOD / objectSize) % UINT_MOD = _
    rw [hsub]
  · intro hq
    show ((Size + ULONG_MOD - hdr) % ULONG_MOD / objectSize) % UINT_MOD = _
    rw [hsub, Nat.mod_eq_of_lt hq]
  · intro ho
    exact Nat.mod_eq_of_lt ho

/-- C1 (witness): the scenario `Size = 4096`, 48-byte header, `objectSize = 64`. -/
theorem C1_new_capacity_witness :
    (sizeofRepoHeader < 4096 ∧ 4096 < ULONG_MOD ∧ 0 < 64) ∧
    ∃ h, RepoHeader.new 4096 sizeofRepoHeader 64 = .ok h ∧
      h.getNumberOfObjects = ((4096 - sizeofRepoHeader) / 64) % UINT_MOD ∧
      h.getObjectSize = 64 % UINT_MOD ∧
      ((4096 - sizeofRepoHeader) / 64 < UINT_MOD →
        h.getNumberOfObjects = (4096 - sizeofRepoHeader) / 64) ∧
      (64 < UINT_MOD → h.getObjectSize = 64) ∧
      h.getAllocated = 0 ∧ h.getFreed = 0 :=
  ⟨by decide, C1_new_capacity 4096 sizeofRepoHeader 64 (by decide) (by decide) (by decide)⟩

/-- C2 (counterexample): a repo of `Size = 4096` with the 48-byte header placed
at address 4096 and constructed with `objectSize = 8` has capacity 506, but its
second `malloc(8)` does not return: the address `bufferStart + 8` fails the
alignment check. -/
theorem C2_counterexample_second_malloc_faults :
    ∃ r0, Repo.new 4096 sizeofRepoHeader 4096 8 = .ok r0 ∧
      r0.getNumberOfObjects = 506 ∧
      run r0 [.malloc 8, .malloc 8] = .fault .assertAlignment :=
  ⟨_, rfl, by decide, by decide⟩

/-- C2 (amended): for a repo whose buffer is smaller than `2^32` bytes, whose
`objectSize` is a positive multiple of `Alignment` and whose buffer starts at an
`Alignment`-aligned non-null address, the capacity is
`n = floor((Size - hdr) / objectSize)`, the first `n` calls `malloc(objectSize)`
return the non-null addresses `bufferStart + i * objectSize` and call `n + 1`
returns null; and `malloc` on any repo with an intact validity tag for which
`isFull()` holds returns null and leaves every member unchanged. -/
theorem C2_malloc_until_full (Size hdr thisAddr objectSize : Nat)
    (hS : hdr ≤ Size) (hbuf : Size - hdr < UINT_MOD) (hpos : 0 < objectSize)
    (hal : objectSize % Alignment = 0) (hb : (thisAddr + hdr) % Alignment = 0)
    (hthis : 0 < thisAddr) :
    (∃ r0 r1, Repo.new Size hdr thisAddr objectSize = .ok r0 ∧
      r0.getNumberOfObjects = (Size - hdr) / objectSize ∧
      run r0 (List.replicate ((Size - hdr) / objectSize + 1) (.malloc objectSize)) =
        .ok ((List.range ((Size - hdr) / objectSize)).map
              (fun i => Ret.ptr (r0.bufferStart + i * objectSize)) ++ [.ptr nullptr], r1) ∧
      (∀ i, r0.bufferStart + i * objectSize ≠ nullptr)) ∧
    (∀ (r : Repo) (sz : Nat), r.isValid = true → r.isFull = true →
      r.malloc sz = .ok (nullptr, r)) := by
  refine ⟨?_, fun r sz hv hf => malloc_full sz hv hf⟩
  obtain ⟨r0, h0⟩ := new_ok_of_pos Size hdr thisAddr objectSize (by omega)
  obtain ⟨_, ha, hf, hm, _, ho, hn, hbs⟩ := new_ok_inv h0
  have hM : UINT_MOD < ULONG_MOD := by decide
  have hsub : (Size + ULONG_MOD - hdr) % ULONG_MOD = Size - hdr := by
    have e : Size + ULONG_MOD - hdr = (Size - hdr) + ULONG_MOD := by omega
    rw [e, Nat.add_mod_right, Nat.mod_eq_of_lt (by omega)]
  have hq : (Size - hdr) / objectSize ≤ Size - hdr := Nat.div_le_self _ _
  rw [hsub, Nat.mod_eq_of_lt (by omega)] at hn
  have hi := inv_new h0
  have hv : r0.isValid = true := by simp [RepoHeader.isValid, hm]
  have hnn : ∀ i, r0.bufferStart + i * objectSize ≠ nullptr := by
    intro i
    rw [hbs]
    show thisAddr + hdr + i * objectSize ≠ 0
    omega
  rcases Nat.eq_zero_or_pos ((Size - hdr) / objectSize) with hz | hz
  · refine ⟨r0, r0, h0, hn, ?_, hnn⟩
    have hfull : r0.isFull = true := by simp [RepoHeader.isFull, ha, hn, hz]
    rw [hz]
    simp [run, step, malloc_full objectSize hv hfull]
  · have hle : objectSize ≤ Size - hdr := by
      by_contra hc
      rw [Nat.div_eq_of_lt (by omega)] at hz
      omega
    have hos : r0.objectSize = objectSize := by rw [ho, Nat.mod_eq_of_lt (by omega)]
    rw [hn, hos] at hi
    have hw : ((Size - hdr) / objectSize - 1) * objectSize < UINT_MOD := by
      have h1 : ((Size - hdr) / objectSize - 1) * objectSize ≤
          (Size - hdr) / objectSize * objectSize := Nat.mul_le_mul_right _ (by omega)
      have h2 := Nat.div_mul_le_self (Size - hdr) objectSize
      omega
    have hb1 : r0.bufferStart % Alignment = 0 := by rw [hbs]; exact hb
    obtain ⟨r1, hr, ha1, _, hi1⟩ :=
      run_mallocs hw hb1 hal ((Size - hdr) / objectSize) r0 hi (by omega)
    rw [ha] at hr ha1
    have hfull : r1.isFull = true := by simp [RepoHeader.isFull, ha1, hi1.nobj]
    have hv1 : r1.isValid = true := by simp [RepoHeader.isValid, hi1.magic]
    have hlast : run r1 [.malloc objectSize] = .ok ([.ptr nullptr], r1) := by
      simp [run, step, malloc_full objectSize hv1 hfull]
    refine ⟨r0, r1, h0, hn, ?_, hnn⟩
    rw [List.replicate_succ', run_append_of hr hlast]
    simp

/-- C2 (witness): the scenario `Size = 4096`, 48-byte header, `objectSize = 64`,
with the repo placed at address 4096. -/
theorem C2_malloc_until_full_witness :
    (sizeofRepoHeader ≤ 4096 ∧ 4096 - sizeofRepoHeader < UINT_MOD ∧ 0 < 64 ∧
      64 % Alignment = 0 ∧ (4096 + sizeofRepoHeader) % Alignment = 0 ∧ 0 < 4096) ∧
    ((∃ r0 r1, Repo.new 4096 sizeofRepoHeader 4096 64 = .ok r0 ∧
      r0.getNumberOfObjects = (4096 - sizeofRepoHeader) / 64 ∧
      run r0 (List.replicate ((4096 - sizeofRepoHeader) / 64 + 1) (.malloc 64)) =
        .ok ((List.range ((4096 - sizeofRepoHeader) / 64)).map
              (fun i => Ret.ptr (r0.bufferStart + i * 64)) ++ [.ptr nullptr], r1) ∧
      (∀ i, r0.bufferStart + i * 64 ≠ nullptr)) ∧
    (∀ (r : Repo) (sz : Nat), r.isValid = true → r.isFull = true →
      r.malloc sz = .ok (nullptr, r))) :=
  ⟨by decide, C2_malloc_until_full 4096 sizeofRepoHeader 4096 64 (by decide) (by decide)
    (by decide) (by decide) (by decide) (by decide)⟩

/-! ## The counters follow the history of returned values -/

theorem malloc_spec {n os b : Nat} {r r1 : Repo} {sz p : Nat} (hi : Inv n os b r)
    (h : r.malloc sz = .ok (p, r1)) :
    (p = nullptr ∧ r1 = r ∧ r.allocated = n) ∨
    (r.allocated < n ∧ sz = os ∧ p = b + r.allocated * os ∧
      r1.allocated = r.allocated + 1 ∧ r1.freed = r.freed ∧
      r.inBounds p = .ok true ∧ p % Alignment = 0) := by
  obtain ⟨_, h1 | h1⟩ := malloc_ok_inv h
  · exact Or.inl ⟨h1.2.1, h1.2.2, by rw [← hi.nobj]; exact h1.1⟩
  · obtain ⟨hne, hsz, hp, hib, hal, hr⟩ := h1
    right
    have hle := hi.alloc_le
    have hn := hi.nobj
    have hlt := hi.n_lt
    have ha : r.allocated < n := by omega
    have hso : sz = os := by rw [hsz, hi.osz]
    have hmul : r.allocated * sz < ULONG_MOD :=
      mul_lt_ulong (by omega) (by rw [hso]; exact hi.os_lt)
    rw [Nat.mod_eq_of_lt hmul, hi.buf, hso] at hp
    refine ⟨ha, hso, hp, ?_, ?_, hib, hal⟩
    · rw [hr]
      show (r.allocated + 1) % UINT_MOD = r.allocated + 1
      exact Nat.mod_eq_of_lt (by omega)
    · rw [hr]; rfl

theorem free_spec {n os b : Nat} {r r1 : Repo} {q : Nat} {x : Bool} (hi : Inv n os b r)
    (h : r.free q = .ok (x, r1)) :
    (x = true ∧ (r.freed + 1) % UINT_MOD = n ∧ r1.allocated = 0 ∧ r1.freed = 0) ∨
    (x = false ∧ (r.freed + 1) % UINT_MOD ≠ n ∧ r1.allocated = r.allocated ∧
      r1.freed = r.freed + 1) := by
  obtain ⟨_, _, hx, hr⟩ := free_ok_inv h
  rw [incFreed_eq] at hx hr
  have hn := hi.nobj
  have hlt := hi.n_lt
  by_cases hc : (r.freed + 1) % UINT_MOD = r.numberOfObjects
  · simp only [hc, if_true] at hx hr
    left
    subst hr
    exact ⟨hx, by rw [hc, hn], rfl, rfl⟩
  · simp only [hc, if_false] at hx hr
    right
    subst hr
    refine ⟨hx, by rw [← hn]; exact hc, rfl, ?_⟩
    show (r.freed + 1) % UINT_MOD = r.freed + 1
    apply Nat.mod_eq_of_lt
    rcases hi.freed_lt with hf | hf
    · omega
    · by_contra hge
      have he : r.freed + 1 = UINT_MOD := by omega
      rw [he, Nat.mod_self] at hc
      omega

theorem allocs_cons (a : Nat) (x : Ret) (xs : List Ret) :
    allocsSinceReset a (x :: xs) = allocsSinceReset (allocsSinceReset a [x]) xs := by
  cases x with
  | ptr p => simp [allocsSinceReset]
  | flag y => cases y <;> simp [allocsSinceReset]

theorem frees_cons (f : Nat) (x : Ret) (xs : List Ret) :
    freesSinceReset f (x :: xs) = freesSinceReset (freesSinceReset f [x]) xs := by
  cases x with
  | ptr p => simp [freesSinceReset]
  | flag y => cases y <;> simp [freesSinceReset]

theorem allocs_append (a : Nat) (xs ys : List Ret) :
    allocsSinceReset a (xs ++ ys) = allocsSinceReset (allocsSinceReset a xs) ys := by
  induction xs generalizing a with
  | nil => simp [allocsSinceReset]
  | cons x xs ih =>
    rw [List.cons_append, allocs_cons, ih, allocs_cons a x xs]

theorem allocs_mono (a : Nat) (xs : List Ret) (h : Ret.flag true ∉ xs) :
    a ≤ allocsSinceReset a xs := by
  induction xs generalizing a with
  | nil => simp [allocsSinceReset]
  | cons x xs ih =>
    have hx : Ret.flag true ∉ xs := fun hm => h (List.mem_cons_of_mem _ hm)
    cases x with
    | ptr p =>
      simp only [allocsSinceReset]
      by_cases hp : p = nullptr
      · simp only [hp, if_true]; exact ih a hx
      · simp only [hp, if_false]
        exact Nat.le_trans (Nat.le_succ a) (ih (a + 1) hx)
    | flag y =>
      cases y with
      | true => exact absurd (List.mem_cons_self _ _) h
      | false => simp only [allocsSinceReset]; exact ih a hx

/-- One call moves both counters as the returned value says. -/
theorem step_ghost {n os b : Nat} {r r1 : Repo} {op : Op} {x : Ret} (hi : Inv n os b r)
    (hb : 0 < b) (h : step r op = .ok (x, r1)) :
    r1.allocated = allocsSinceReset r.allocated [x] ∧
      r1.freed = freesSinceReset r.freed [x] := by
  cases op with
  | malloc sz =>
    obtain ⟨p, hx, hm⟩ := step_malloc_ok h
    subst hx
    rcases malloc_spec hi hm with ⟨hp, hr, _⟩ | ⟨_, _, hp, ha, hf, _, _⟩
    · subst hr
      simp [allocsSinceReset, freesSinceReset, hp]
    · have hne : p ≠ nullptr := by
        rw [hp]; show b + r.allocated * os ≠ 0; omega
      simp [allocsSinceReset, freesSinceReset, hne, ha, hf]
  | free q =>
    obtain ⟨y, hx, hm⟩ := step_free_ok h
    subst hx
    rcases free_spec hi hm with ⟨hy, _, ha, hf⟩ | ⟨hy, _, ha, hf⟩
    · subst hy; simp [allocsSinceReset, freesSinceReset, ha, hf]
    · subst hy; simp [allocsSinceReset, freesSinceReset, ha, hf]

/-- After any sequence of calls the two counters are the numbers of successful
allocations and of frees since the last reset. -/
theorem run_ghost {n os b : Nat} {r r1 : Repo} {ops : List Op} {rets : List Ret}
    (hi : Inv n os b r) (hb : 0 < b) (h : run r ops = .ok (rets, r1)) :
    r1.allocated = allocsSinceReset r.allocated rets ∧
      r1.freed = freesSinceReset r.freed rets := by
  induction ops generalizing r rets with
  | nil =>
    simp only [run] at h
    injection h with h
    injection h with h1 h2
    subst h1; subst h2
    simp [allocsSinceReset, freesSinceReset]
  | cons op ops ih =>
    obtain ⟨x, ra, xs, hs, hr, he⟩ := run_cons_ok h
    subst he
    obtain ⟨g1, g2⟩ := step_ghost hi hb hs
    obtain ⟨i1, i2⟩ := ih (inv_step hi hs) hr
    rw [allocs_cons, frees_cons, ← g1, ← g2]
    exact ⟨i1, i2⟩

/-- A returned value in the middle of a history splits the run at its call. -/
theorem run_split {r r1 : Repo} {ops : List Op} {l1 l3 : List Ret} {x : Ret}
    (h : run r ops = .ok (l1 ++ x :: l3, r1)) :
    ∃ ops1 op ops3 ra rb, ops = ops1 ++ op :: ops3 ∧ run r ops1 = .ok (l1, ra) ∧
      step ra op = .ok (x, rb) ∧ run rb ops3 = .ok (l3, r1) := by
  induction l1 generalizing r ops with
  | nil =>
    cases ops with
    | nil => simp [run] at h
    | cons op ops =>
      obtain ⟨y, ra, xs, hs, hr, he⟩ := run_cons_ok h
      simp only [List.nil_append, List.cons.injEq] at he
      obtain ⟨e1, e2⟩ := he
      subst e1; subst e2
      exact ⟨[], op, ops, r, ra, rfl, by simp [run], hs, hr⟩
  | cons y l1 ih =>
    cases ops with
    | nil => simp [run] at h
    | cons op ops =>
      obtain ⟨z, ra, xs, hs, hr, he⟩ := run_cons_ok h
      simp only [List.cons_append, List.cons.injEq] at he
      obtain ⟨e1, e2⟩ := he
      subst e1; subst e2
      obtain ⟨ops1, op2, ops3, rc, rd, ho, h1, h2, h3⟩ := ih hr
      exact ⟨op :: ops1, op2, ops3, rc, rd, by rw [ho]; rfl, run_cons_of hs h1, h2, h3⟩

/-- The address returned by a successful allocation is that of the slot whose
index is the number of successful allocations since the last reset. -/
theorem slot_of_history {n os b : Nat} {r r1 : Repo} {ops : List Op} {l1 l3 : List Ret}
    {p : Nat} (hi : Inv n os b r) (hb : 0 < b)
    (h : run r ops = .ok (l1 ++ .ptr p :: l3, r1)) (hp : p ≠ nullptr) :
    p = b + allocsSinceReset r.allocated l1 * os ∧ allocsSinceReset r.allocated l1 < n := by
  obtain ⟨ops1, op, ops3, ra, rb, _, h1, h2, _⟩ := run_split h
  have hia := inv_run hi h1
  obtain ⟨g, _⟩ := run_ghost hi hb h1
  cases op with
  | malloc sz =>
    obtain ⟨q, hx, hm⟩ := step_malloc_ok h2
    injection hx with hx
    subst hx
    rcases malloc_spec hia hm with ⟨hnull, _⟩ | ⟨hlt, _, hq, _⟩
    · exact absurd hnull hp
    · rw [← g]; exact ⟨hq, hlt⟩
  | free q =>
    obtain ⟨y, hx, _⟩ := step_free_ok h2
    cases hx

/-! ## Claim C3 -/

/-- C3 (counterexample): a repo of `Size = 2^33 + 48` constructed with
`objectSize = 2^32` stores the object size `0` and the capacity `2`; its first
two allocations, made in the same epoch with no call in between, both return
the non-null address 4144. -/
theorem C3_counterexample_same_address :
    ∃ r0 r, Repo.new 8589934640 sizeofRepoHeader 4096 4294967296 = .ok r0 ∧
      r0.getObjectSize = 0 ∧ r0.getNumberOfObjects = 2 ∧
      run r0 [.malloc 0, .malloc 0] = .ok ([.ptr 4144, .ptr 4144], r) ∧
      4144 ≠ nullptr :=
  ⟨_, _, rfl, by decide, by decide, rfl, by decide⟩

/-- C3 (amended): in every history of calls on a constructed repo, a successful
`malloc` returns `bufferStart + i * objectSize`, where `i` is the number of
successful allocations since the last reset, whatever frees are interleaved;
and when the stored object size is not zero, two successful allocations with no
reset between them return different addresses, the later one at least one
object size above the earlier one. -/
theorem C3_sequential_slots (Size hdr thisAddr objectSize : Nat) (r0 r : Repo)
    (ops : List Op) (rets : List Ret) (hthis : 0 < thisAddr)
    (h0 : Repo.new Size hdr thisAddr objectSize = .ok r0)
    (hr : run r0 ops = .ok (rets, r)) :
    (∀ l1 p l3, rets = l1 ++ .ptr p :: l3 → p ≠ nullptr →
      p = r0.bufferStart + allocsSinceReset 0 l1 * r0.getObjectSize) ∧
    (0 < r0.getObjectSize → ∀ l1 p1 l2 p2 l3,
      rets = l1 ++ .ptr p1 :: (l2 ++ .ptr p2 :: l3) → p1 ≠ nullptr → p2 ≠ nullptr →
      Ret.flag true ∉ l2 → p1 + r0.getObjectSize ≤ p2 ∧ p1 ≠ p2) := by
  have hi := inv_new h0
  obtain ⟨_, ha, _, _, _, _, _, hbs⟩ := new_ok_inv h0
  have hb : 0 < r0.bufferStart := by rw [hbs]; omega
  have key : ∀ l1 p l3, rets = l1 ++ .ptr p :: l3 → p ≠ nullptr →
      p = r0.bufferStart + allocsSinceReset 0 l1 * r0.getObjectSize := by
    intro l1 p l3 he hp
    rw [he] at hr
    have := (slot_of_history hi hb hr hp).1
    rw [ha] at this
    exact this
  refine ⟨key, ?_⟩
  intro hos l1 p1 l2 p2 l3 he hp1 hp2 hno
  have e1 := key l1 p1 _ he hp1
  have he2 : rets = (l1 ++ .ptr p1 :: l2) ++ .ptr p2 :: l3 := by
    rw [he]; simp
  have e2 := key _ p2 l3 he2 hp2
  rw [allocs_append] at e2
  have hstep : allocsSinceReset (allocsSinceReset 0 l1) (.ptr p1 :: l2) =
      allocsSinceReset (allocsSinceReset 0 l1 + 1) l2 := by
    simp [allocsSinceReset, hp1]
  rw [hstep] at e2
  have hm := allocs_mono (allocsSinceReset 0 l1 + 1) l2 hno
  have hmul := Nat.mul_le_mul_right r0.getObjectSize hm
  rw [Nat.add_mul, Nat.one_mul] at hmul
  constructor
  · omega
  · omega

/-- C3 (witness): on the repo of `Size = 4096`, `objectSize = 64` placed at
address 4096, the history `malloc, free, malloc`. -/
theorem C3_sequential_slots_witness :
    (0 < 4096 ∧
      Repo.new 4096 sizeofRepoHeader 4096 64 = .ok ⟨⟨64, 63, 0, 0, MAGIC_NUMBER, 0⟩, 4144⟩ ∧
      run ⟨⟨64, 63, 0, 0, MAGIC_NUMBER, 0⟩, 4144⟩ [.malloc 64, .free 4144, .malloc 64] =
        .ok ([.ptr 4144, .flag false, .ptr 4208], ⟨⟨64, 63, 2, 1, MAGIC_NUMBER, 0⟩, 4144⟩)) ∧
    ((∀ l1 p l3, [Ret.ptr 4144, .flag false, .ptr 4208] = l1 ++ .ptr p :: l3 → p ≠ nullptr →
      p = (⟨⟨64, 63, 0, 0, MAGIC_NUMBER, 0⟩, 4144⟩ : Repo).bufferStart +
        allocsSinceReset 0 l1 * (⟨⟨64, 63, 0, 0, MAGIC_NUMBER, 0⟩, 4144⟩ : Repo).getObjectSize) ∧
    (0 < (⟨⟨64, 63, 0, 0, MAGIC_NUMBER, 0⟩, 4144⟩ : Repo).getObjectSize → ∀ l1 p1 l2 p2 l3,
      [Ret.ptr 4144, .flag false, .ptr 4208] = l1 ++ .ptr p1 :: (l2 ++ .ptr p2 :: l3) →
      p1 ≠ nullptr → p2 ≠ nullptr → Ret.flag true ∉ l2 →
      p1 + (⟨⟨64, 63, 0, 0, MAGIC_NUMBER, 0⟩, 4144⟩ : Repo).getObjectSize ≤ p2 ∧ p1 ≠ p2)) :=
  ⟨⟨by decide, by decide, by decide⟩,
    C3_sequential_slots 4096 sizeofRepoHeader 4096 64 ⟨⟨64, 63, 0, 0, MAGIC_NUMBER, 0⟩, 4144⟩
      ⟨⟨64, 63, 2, 1, MAGIC_NUMBER, 0⟩, 4144⟩ [.malloc 64, .free 4144, .malloc 64]
      [.ptr 4144, .flag false, .ptr 4208] (by decide) (by decide) (by decide)⟩

/-! ## Draining a full repo -/

theorem malloc_of_checks (r : Repo) (sz : Nat) (hm : r.magic = MAGIC_NUMBER)
    (hne : r.allocated ≠ r.numberOfObjects) (hsz : sz = r.objectSize)
    (hib : r.inBounds (r.bufferStart + (r.allocated * sz) % ULONG_MOD) = .ok true)
    (hal : (r.bufferStart + (r.allocated * sz) % ULONG_MOD) % Alignment = 0) :
    r.malloc sz = .ok (r.bufferStart + (r.allocated * sz) % ULONG_MOD,
      { r with toRepoHeader := r.toRepoHeader.incAllocated }) := by
  have hv : r.isValid = true := by simp [RepoHeader.isValid, hm]
  have hnf : r.isFull = false := by simp [RepoHeader.isFull, hne]
  unfold Repo.malloc
  simp only [hv, hnf, if_true, Bool.not_false, RepoHeader.getObjectSize, hsz,
    RepoHeader.getAllocated]
  rw [hsz] at hib hal
  simp only [hib, hal, if_true]

theorem inBounds_of_inv {n os b : Nat} {r r1 : Repo} (hi : Inv n os b r)
    (hi1 : Inv n os b r1) (p : Nat) : r1.inBounds p = r.inBounds p :=
  inBounds_congr (by rw [hi.magic, hi1.magic]) (by rw [hi.nobj, hi1.nobj])
    (by rw [hi.osz, hi1.osz]) (by rw [hi.buf, hi1.buf]) p

/-- Allocations that returned while the repo was not full moved only
`allocated`, and every address they returned passes `inBounds`. -/
theorem run_mallocs_ok {n os b sz : Nat} (k : Nat) :
    ∀ (r r1 : Repo) (ms : List Ret), Inv n os b r → r.allocated + k ≤ n →
      run r (List.replicate k (.malloc sz)) = .ok (ms, r1) →
      r1.allocated = r.allocated + k ∧ r1.freed = r.freed ∧
        ∀ p, Ret.ptr p ∈ ms → r.inBounds p = .ok true := by
  induction k with
  | zero =>
    intro r r1 ms _ _ h
    simp only [List.replicate, run] at h
    injection h with h
    injection h with h1 h2
    subst h1; subst h2
    simp
  | succ k ih =>
    intro r r1 ms hi hk h
    rw [List.replicate_succ] at h
    obtain ⟨x, ra, xs, hs, hr, he⟩ := run_cons_ok h
    subst he
    obtain ⟨p, hx, hm⟩ := step_malloc_ok hs
    subst hx
    have hia := inv_malloc hi hm
    rcases malloc_spec hi hm with ⟨_, _, hfull⟩ | ⟨_, _, _, ha, hf, hib, _⟩
    · omega
    · obtain ⟨i1, i2, i3⟩ := ih ra r1 xs hia (by omega) hr
      refine ⟨by omega, by omega, ?_⟩
      intro q hq
      rcases List.mem_cons.mp hq with hq | hq
      · injection hq with hq
        rw [hq]; exact hib
      · rw [← inBounds_of_inv hi hia q]; exact i3 q hq

/-- Freeing in-bounds addresses until `freed` reaches the capacity: every call
but the last returns `false`, the last returns `true` and resets the counters. -/
theorem run_frees {n os b : Nat} (qs : List Nat) :
    ∀ r : Repo, Inv n os b r → (∀ q ∈ qs, r.inBounds q = .ok true) →
      r.freed + qs.length = n → qs ≠ [] →
      ∃ r2, run r (qs.map Op.free) =
          .ok (List.replicate (qs.length - 1) (.flag false) ++ [.flag true], r2) ∧
        r2.allocated = 0 ∧ r2.freed = 0 ∧ Inv n os b r2 := by
  induction qs with
  | nil => intro r _ _ _ hne; exact absurd rfl hne
  | cons q qs ih =>
    intro r hi hib hlen _
    have hq := hib q (List.mem_cons_self _ _)
    have hfree := free_of_inBounds hq
    have hi1 := inv_free hi hfree
    have hst : step r (.free q) = .ok (.flag r.toRepoHeader.incFreed.1,
        { r with toRepoHeader := r.toRepoHeader.incFreed.2 }) := by
      simp [step, hfree]
    have hn := hi.n_lt
    simp only [List.length_cons] at hlen
    have hmod : (r.freed + 1) % UINT_MOD = r.freed + 1 := Nat.mod_eq_of_lt (by omega)
    rcases free_spec hi hfree with ⟨hx, hc, ha, hf⟩ | ⟨hx, hc, ha, hf⟩
    · have hnil : qs = [] := by
        rw [hmod] at hc
        exact List.eq_nil_of_length_eq_zero (by omega)
      subst hnil
      refine ⟨_, ?_, ha, hf, hi1⟩
      rw [hx] at hst
      simpa using run_cons_of hst (show run _ [] = .ok ([], _) by simp [run])
    · have hne : qs ≠ [] := by
        intro hnil
        subst hnil
        rw [hmod] at hc
        simp only [List.length_nil] at hlen
        omega
      have hpos : 0 < qs.length := List.length_pos.mpr hne
      obtain ⟨r2, hr, a2, f2, i2⟩ := ih _ hi1
        (fun x hxm => by
          rw [inBounds_of_inv hi hi1 x]; exact hib x (List.mem_cons_of_mem _ hxm))
        (by rw [hf]; omega) hne
      refine ⟨r2, ?_, a2, f2, i2⟩
      rw [hx] at hst
      rw [List.map_cons, run_cons_of hst hr]
      have e : (q :: qs).length - 1 = (qs.length - 1) + 1 := by
        simp only [List.length_cons]; omega
      rw [e, List.replicate_succ, List.cons_append]

/-! ## Claim C4 -/

/-- C4: on a constructed repo with capacity `n ≥ 1` whose counters are both
zero (fresh, or just reset), after `n` allocations `malloc(sz)` have returned,
freeing `n` of the returned addresses in any order makes the first `n - 1`
calls to `free` return `false` and the last one return `true`; afterwards
`allocated = 0` and `freed = 0`, and the next `malloc(sz)` returns the non-null
address `bufferStart`. -/
theorem C4_drain_and_reuse (Size hdr thisAddr objectSize sz : Nat) (r0 ra r1 : Repo)
    (pre : List Op) (xs ms : List Ret) (qs : List Nat) (hthis : 0 < thisAddr)
    (h0 : Repo.new Size hdr thisAddr objectSize = .ok r0)
    (hn : 1 ≤ r0.getNumberOfObjects)
    (hpre : run r0 pre = .ok (xs, ra))
    (hzero : ra.getAllocated = 0 ∧ ra.getFreed = 0)
    (hm : run ra (List.replicate r0.getNumberOfObjects (.malloc sz)) = .ok (ms, r1))
    (hlen : qs.length = r0.getNumberOfObjects) (hq : ∀ q ∈ qs, Ret.ptr q ∈ ms) :
    ∃ r2 r3, run r1 (qs.map Op.free) =
        .ok (List.replicate (r0.getNumberOfObjects - 1) (.flag false) ++ [.flag true], r2) ∧
      r2.getAllocated = 0 ∧ r2.getFreed = 0 ∧
      r2.malloc sz = .ok (r0.bufferStart, r3) ∧ r0.bufferStart ≠ nullptr := by
  have hi0 := inv_new h0
  obtain ⟨_, _, _, _, _, _, _, hbs⟩ := new_ok_inv h0
  have hia := inv_run hi0 hpre
  have hi1 := inv_run hia hm
  obtain ⟨hza, hzf⟩ := hzero
  have hza1 : ra.allocated = 0 := hza
  have hzf1 : ra.freed = 0 := hzf
  have hn1 : 1 ≤ r0.numberOfObjects := hn
  obtain ⟨a1, f1, ib1⟩ := run_mallocs_ok r0.numberOfObjects ra r1 ms hia (by omega) hm
  have hne : qs ≠ [] := by
    intro hnil
    subst hnil
    simp only [List.length_nil] at hlen
    have : r0.numberOfObjects = 0 := hlen.symm
    omega
  obtain ⟨r2, hr, a2, f2, i2⟩ := run_frees qs r1 hi1
    (fun q hqm => by rw [inBounds_of_inv hia hi1 q]; exact ib1 q (hq q hqm))
    (by rw [f1, hzf1, hlen]; exact Nat.zero_add _) hne
  -- the first allocation of the epoch passed every check at slot 0
  obtain ⟨k, hk⟩ : ∃ k, r0.getNumberOfObjects = k + 1 := ⟨r0.numberOfObjects - 1, by
    show r0.numberOfObjects = _; omega⟩
  rw [hk, List.replicate_succ] at hm
  obtain ⟨x, rb, ys, hs, _, _⟩ := run_cons_ok hm
  obtain ⟨p, _, hmal⟩ := step_malloc_ok hs
  obtain ⟨_, c | c⟩ := malloc_ok_inv hmal
  · have hfull := c.1
    have hcap := hia.nobj
    rw [hza1] at hfull
    omega
  · obtain ⟨_, hsz, hp, hib, hal, _⟩ := c
    rw [hza1, Nat.zero_mul, Nat.zero_mod, Nat.add_zero] at hp
    subst hp
    have hne2 : r2.allocated ≠ r2.numberOfObjects := by rw [a2, i2.nobj]; omega
    have hsz2 : sz = r2.objectSize := by rw [hsz, hia.osz, i2.osz]
    have hb2 : r2.bufferStart = ra.bufferStart := by rw [i2.buf, hia.buf]
    have hp2 : r2.bufferStart + (r2.allocated * sz) % ULONG_MOD = ra.bufferStart := by
      rw [a2, Nat.zero_mul, Nat.zero_mod, Nat.add_zero, hb2]
    have hmal2 := malloc_of_checks r2 sz i2.magic hne2 hsz2
      (by rw [hp2, inBounds_of_inv hia i2]; exact hib) (by rw [hp2]; exact hal)
    rw [hp2, hia.buf] at hmal2
    refine ⟨r2, _, ?_, a2, f2, hmal2, ?_⟩
    · rw [hlen] at hr; exact hr
    · rw [hbs]; show thisAddr + hdr ≠ 0; omega

/-- C4 (witness): the scenario `Size = 4096`, 48-byte header, `objectSize = 64`
at address 4096: 63 allocations, then the 63 slots are freed. -/
theorem C4_drain_and_reuse_witness :
    (0 < 4096 ∧
      Repo.new 4096 sizeofRepoHeader 4096 64 = .ok ⟨⟨64, 63, 0, 0, MAGIC_NUMBER, 0⟩, 4144⟩ ∧
      1 ≤ (⟨⟨64, 63, 0, 0, MAGIC_NUMBER, 0⟩, 4144⟩ : Repo).getNumberOfObjects ∧
      run ⟨⟨64, 63, 0, 0, MAGIC_NUMBER, 0⟩, 4144⟩ [] =
        .ok ([], ⟨⟨64, 63, 0, 0, MAGIC_NUMBER, 0⟩, 4144⟩) ∧
      ((⟨⟨64, 63, 0, 0, MAGIC_NUMBER, 0⟩, 4144⟩ : Repo).getAllocated = 0 ∧
        (⟨⟨64, 63, 0, 0, MAGIC_NUMBER, 0⟩, 4144⟩ : Repo).getFreed = 0) ∧
      run ⟨⟨64, 63, 0, 0, MAGIC_NUMBER, 0⟩, 4144⟩
          (List.replicate (⟨⟨64, 63, 0, 0, MAGIC_NUMBER, 0⟩, 4144⟩ : Repo).getNumberOfObjects
            (.malloc 64)) =
        .ok ((List.range 63).map (fun i => Ret.ptr (4144 + i * 64)),
          ⟨⟨64, 63, 63, 0, MAGIC_NUMBER, 0⟩, 4144⟩) ∧
      ((List.range 63).map (fun i => 4144 + i * 64)).length =
        (⟨⟨64, 63, 0, 0, MAGIC_NUMBER, 0⟩, 4144⟩ : Repo).getNumberOfObjects ∧
      ∀ q ∈ (List.range 63).map (fun i => 4144 + i * 64),
        Ret.ptr q ∈ (List.range 63).map (fun i => Ret.ptr (4144 + i * 64))) ∧
    ∃ r2 r3, run ⟨⟨64, 63, 63, 0, MAGIC_NUMBER, 0⟩, 4144⟩
          (((List.range 63).map (fun i => 4144 + i * 64)).map Op.free) =
        .ok (List.replicate
          ((⟨⟨64, 63, 0, 0, MAGIC_NUMBER, 0⟩, 4144⟩ : Repo).getNumberOfObjects - 1)
          (.flag false) ++ [.flag true], r2) ∧
      r2.getAllocated = 0 ∧ r2.getFreed = 0 ∧
      r2.malloc 64 = .ok ((⟨⟨64, 63, 0, 0, MAGIC_NUMBER, 0⟩, 4144⟩ : Repo).bufferStart, r3) ∧
      (⟨⟨64, 63, 0, 0, MAGIC_NUMBER, 0⟩, 4144⟩ : Repo).bufferStart ≠ nullptr :=
  ⟨⟨by decide, by decide, by decide, by decide, by decide, by decide, by decide, by decide⟩,
    C4_drain_and_reuse 4096 sizeofRepoHeader 4096 64 64 ⟨⟨64, 63, 0, 0, MAGIC_NUMBER, 0⟩, 4144⟩
      ⟨⟨64, 63, 0, 0, MAGIC_NUMBER, 0⟩, 4144⟩ ⟨⟨64, 63, 63, 0, MAGIC_NUMBER, 0⟩, 4144⟩ []
      [] ((List.range 63).map (fun i => Ret.ptr (4144 + i * 64)))
      ((List.range 63).map (fun i => 4144 + i * 64))
      (by decide) (by decide) (by decide) (by decide) (by decide) (by decide) (by decide)
      (by decide)⟩

/-! ## Claims C5 and C6 -/

/-- C5: in every state reached from a constructed repo and for every pointer
`p` that passes `inBounds`, `free(p)` returns, and it returns `true` exactly
when `freed` incremented as an `unsigned int` equals `numberOfObjects` (for a
capacity of at least one: exactly when `freed + 1` equals it); when it returns
`true` both counters are zero afterwards, when it returns `false` `allocated`
is unchanged and `freed` is its old value plus one; no other member changes. -/
theorem C5_free_counts (Size hdr thisAddr objectSize : Nat) (r0 r : Repo) (p : Nat)
    (h0 : Repo.new Size hdr thisAddr objectSize = .ok r0) (hr : Reachable r0 r)
    (hp : r.inBounds p = .ok true) :
    ∃ b r1, r.free p = .ok (b, r1) ∧
      (b = true ↔ (r.getFreed + 1) % UINT_MOD = r.getNumberOfObjects) ∧
      (1 ≤ r.getNumberOfObjects → (b = true ↔ r.getFreed + 1 = r.getNumberOfObjects)) ∧
      (b = true → r1.getAllocated = 0 ∧ r1.getFreed = 0) ∧
      (b = false → r1.getAllocated = r.getAllocated ∧ r1.getFreed = r.getFreed + 1) ∧
      r1.getObjectSize = r.getObjectSize ∧ r1.getNumberOfObjects = r.getNumberOfObjects ∧
      r1.isValid = r.isValid ∧ r1.getNext = r.getNext ∧ r1.bufferStart = r.bufferStart := by
  have hi := inv_reachable h0 hr
  have hfree := free_of_inBounds hp
  have hn := hi.nobj
  have hlt := hi.n_lt
  refine ⟨_, _, hfree, ?_, ?_, ?_, ?_, ?_, ?_, ?_, ?_, ?_⟩
  · rcases free_spec hi hfree with ⟨hx, hc, _, _⟩ | ⟨hx, hc, _, _⟩
    · rw [hx]
      show true = true ↔ (r.freed + 1) % UINT_MOD = r.numberOfObjects
      rw [hn]; simp [hc]
    · rw [hx]
      show false = true ↔ (r.freed + 1) % UINT_MOD = r.numberOfObjects
      rw [hn]; simp [hc]
  · intro h1
    have h1n : 1 ≤ r.numberOfObjects := h1
    have hmod : (r.freed + 1) % UINT_MOD = r.freed + 1 := by
      apply Nat.mod_eq_of_lt
      rcases hi.freed_lt with hf | hf <;> omega
    rcases free_spec hi hfree with ⟨hx, hc, _, _⟩ | ⟨hx, hc, _, _⟩
    · rw [hx]
      show true = true ↔ r.freed + 1 = r.numberOfObjects
      rw [hmod] at hc
      rw [hn]; simp [hc]
    · rw [hx]
      show false = true ↔ r.freed + 1 = r.numberOfObjects
      rw [hmod] at hc
      rw [hn]; simp [hc]
  · intro hb
    rcases free_spec hi hfree with ⟨_, _, ha, hf⟩ | ⟨hx, _, _, _⟩
    · exact ⟨ha, hf⟩
    · rw [hx] at hb; cases hb
  · intro hb
    rcases free_spec hi hfree with ⟨hx, _, _, _⟩ | ⟨_, _, ha, hf⟩
    · rw [hx] at hb; cases hb
    · exact ⟨ha, hf⟩
  · rw [incFreed_eq]; split <;> rfl
  · rw [incFreed_eq]; split <;> rfl
  · rw [incFreed_eq]; split <;> rfl
  · rw [incFreed_eq]; split <;> rfl
  · rfl

/-- C5 (witness): the repo of `Size = 240` (capacity 3, `objectSize = 64`) after
two allocations and one free; the next `free` of the first slot. -/
theorem C5_free_counts_witness :
    (Repo.new 240 sizeofRepoHeader 4096 64 = .ok ⟨⟨64, 3, 0, 0, MAGIC_NUMBER, 0⟩, 4144⟩ ∧
      Reachable ⟨⟨64, 3, 0, 0, MAGIC_NUMBER, 0⟩, 4144⟩ ⟨⟨64, 3, 2, 1, MAGIC_NUMBER, 0⟩, 4144⟩ ∧
      (⟨⟨64, 3, 2, 1, MAGIC_NUMBER, 0⟩, 4144⟩ : Repo).inBounds 4144 = .ok true) ∧
    ∃ b r1, (⟨⟨64, 3, 2, 1, MAGIC_NUMBER, 0⟩, 4144⟩ : Repo).free 4144 = .ok (b, r1) ∧
      (b = true ↔ ((⟨⟨64, 3, 2, 1, MAGIC_NUMBER, 0⟩, 4144⟩ : Repo).getFreed + 1) % UINT_MOD =
        (⟨⟨64, 3, 2, 1, MAGIC_NUMBER, 0⟩, 4144⟩ : Repo).getNumberOfObjects) ∧
      (1 ≤ (⟨⟨64, 3, 2, 1, MAGIC_NUMBER, 0⟩, 4144⟩ : Repo).getNumberOfObjects →
        (b = true ↔ (⟨⟨64, 3, 2, 1, MAGIC_NUMBER, 0⟩, 4144⟩ : Repo).getFreed + 1 =
          (⟨⟨64, 3, 2, 1, MAGIC_NUMBER, 0⟩, 4144⟩ : Repo).getNumberOfObjects)) ∧
      (b = true → r1.getAllocated = 0 ∧ r1.getFreed = 0) ∧
      (b = false →
        r1.getAllocated = (⟨⟨64, 3, 2, 1, MAGIC_NUMBER, 0⟩, 4144⟩ : Repo).getAllocated ∧
        r1.getFreed = (⟨⟨64, 3, 2, 1, MAGIC_NUMBER, 0⟩, 4144⟩ : Repo).getFreed + 1) ∧
      r1.getObjectSize = (⟨⟨64, 3, 2, 1, MAGIC_NUMBER, 0⟩, 4144⟩ : Repo).getObjectSize ∧
      r1.getNumberOfObjects =
        (⟨⟨64, 3, 2, 1, MAGIC_NUMBER, 0⟩, 4144⟩ : Repo).getNumberOfObjects ∧
      r1.isValid = (⟨⟨64, 3, 2, 1, MAGIC_NUMBER, 0⟩, 4144⟩ : Repo).isValid ∧
      r1.getNext = (⟨⟨64, 3, 2, 1, MAGIC_NUMBER, 0⟩, 4144⟩ : Repo).getNext ∧
      r1.bufferStart = (⟨⟨64, 3, 2, 1, MAGIC_NUMBER, 0⟩, 4144⟩ : Repo).bufferStart :=
  ⟨⟨by decide, ⟨[.malloc 64, .malloc 64, .free 4208], [.ptr 4144, .ptr 4208, .flag false],
      by decide⟩, by decide⟩,
    C5_free_counts 240 sizeofRepoHeader 4096 64 ⟨⟨64, 3, 0, 0, MAGIC_NUMBER, 0⟩, 4144⟩
      ⟨⟨64, 3, 2, 1, MAGIC_NUMBER, 0⟩, 4144⟩ 4144 (by decide)
      ⟨[.malloc 64, .malloc 64, .free 4208], [.ptr 4144, .ptr 4208, .flag false], by decide⟩
      (by decide)⟩

/-- C6: a non-null pointer `p` returned by `malloc(sz)` in any state of a
constructed repo passes `inBounds` and has `getSize(p)` equal to the object size
of the repo (which is `sz`, and the constructor argument when that is below
`2^32`), immediately and after any further calls that returned. -/
theorem C6_returned_pointer_roundtrip (Size hdr thisAddr objectSize sz p : Nat)
    (r0 r r1 r2 : Repo) (h0 : Repo.new Size hdr thisAddr objectSize = .ok r0)
    (hr : Reachable r0 r) (hm : r.malloc sz = .ok (p, r1)) (hp : p ≠ nullptr)
    (hr2 : Reachable r1 r2) :
    r2.inBounds p = .ok true ∧ r2.getSize p = .ok r0.getObjectSize ∧
      r0.getObjectSize = sz ∧ (objectSize < UINT_MOD → r2.getSize p = .ok objectSize) := by
  have hi := inv_reachable h0 hr
  have hi1 := inv_malloc hi hm
  obtain ⟨ops, rets, hrun⟩ := hr2
  have hi2 := inv_run hi1 hrun
  obtain ⟨_, _, _, _, _, ho, _, _⟩ := new_ok_inv h0
  have hv2 : r2.isValid = true := by simp [RepoHeader.isValid, hi2.magic]
  have hsize : r2.getSize p = .ok r0.getObjectSize := by
    unfold Repo.getSize RepoHeader.getBaseSize
    simp only [hv2, if_true, hi2.osz]
    rfl
  rcases malloc_spec hi hm with ⟨hnull, _⟩ | ⟨_, hsz, _, _, _, hib, _⟩
  · exact absurd hnull hp
  · refine ⟨by rw [inBounds_of_inv hi hi2]; exact hib, hsize, hsz.symm, ?_⟩
    intro hlt
    rw [hsize]
    show Outcome.ok r0.objectSize = _
    rw [ho, Nat.mod_eq_of_lt hlt]

/-- C6 (witness): on the repo of `Size = 240` (capacity 3, `objectSize = 64`), the
pointer returned by the second allocation, after a third allocation and a free. -/
theorem C6_returned_pointer_roundtrip_witness :
    (Repo.new 240 sizeofRepoHeader 4096 64 = .ok ⟨⟨64, 3, 0, 0, MAGIC_NUMBER, 0⟩, 4144⟩ ∧
      Reachable ⟨⟨64, 3, 0, 0, MAGIC_NUMBER, 0⟩, 4144⟩ ⟨⟨64, 3, 1, 0, MAGIC_NUMBER, 0⟩, 4144⟩ ∧
      (⟨⟨64, 3, 1, 0, MAGIC_NUMBER, 0⟩, 4144⟩ : Repo).malloc 64 =
        .ok (4208, ⟨⟨64, 3, 2, 0, MAGIC_NUMBER, 0⟩, 4144⟩) ∧
      4208 ≠ nullptr ∧
      Reachable ⟨⟨64, 3, 2, 0, MAGIC_NUMBER, 0⟩, 4144⟩ ⟨⟨64, 3, 3, 1, MAGIC_NUMBER, 0⟩, 4144⟩) ∧
    ((⟨⟨64, 3, 3, 1, MAGIC_NUMBER, 0⟩, 4144⟩ : Repo).inBounds 4208 = .ok true ∧
      (⟨⟨64, 3, 3, 1, MAGIC_NUMBER, 0⟩, 4144⟩ : Repo).getSize 4208 =
        .ok (⟨⟨64, 3, 0, 0, MAGIC_NUMBER, 0⟩, 4144⟩ : Repo).getObjectSize ∧
      (⟨⟨64, 3, 0, 0, MAGIC_NUMBER, 0⟩, 4144⟩ : Repo).getObjectSize = 64 ∧
      (64 < UINT_MOD → (⟨⟨64, 3, 3, 1, MAGIC_NUMBER, 0⟩, 4144⟩ : Repo).getSize 4208 = .ok 64)) :=
  ⟨⟨by decide, ⟨[.malloc 64], [.ptr 4144], by decide⟩, by decide, by decide,
      ⟨[.malloc 64, .free 4208], [.ptr 4272, .flag false], by decide⟩⟩,
    C6_returned_pointer_roundtrip 240 sizeofRepoHeader 4096 64 64 4208
      ⟨⟨64, 3, 0, 0, MAGIC_NUMBER, 0⟩, 4144⟩ ⟨⟨64, 3, 1, 0, MAGIC_NUMBER, 0⟩, 4144⟩
      ⟨⟨64, 3, 2, 0, MAGIC_NUMBER, 0⟩, 4144⟩ ⟨⟨64, 3, 3, 1, MAGIC_NUMBER, 0⟩, 4144⟩
      (by decide) ⟨[.malloc 64], [.ptr 4144], by decide⟩ (by decide) (by decide)
      ⟨[.malloc 64, .free 4208], [.ptr 4272, .flag false], by decide⟩⟩

/-! ## Claim C7 -/

/-- When `malloc` ends in the alignment check, the slot address it computed is
not a multiple of `Alignment`. -/
theorem malloc_fault_align {r : Repo} {sz : Nat} (h : r.malloc sz = .fault .assertAlignment) :
    sz = r.objectSize ∧
      (r.bufferStart + (r.allocated * r.objectSize) % ULONG_MOD) % Alignment ≠ 0 := by
  unfold Repo.malloc at h
  by_cases hv : r.isValid = true
  · simp only [hv, if_true] at h
    by_cases hf : r.isFull = true
    · simp [hf] at h
    · simp only [hf, Bool.not_false, if_true] at h
      by_cases hs : sz = r.getObjectSize
      · simp only [hs, if_true] at h
        refine ⟨hs, ?_⟩
        split at h
        · split at h
          · cases h
          · rename_i hne
            exact hne
        · cases h
        · rename_i f hfault
          unfold Repo.inBounds at hfault
          simp [hv] at hfault
      · simp [hs] at h
  · simp [hv] at h

theorem slot_aligned {b a s : Nat} (hb : b % Alignment = 0) (hs : s % Alignment = 0) :
    (b + (a * s) % ULONG_MOD) % Alignment = 0 := by
  have hd : Alignment ∣ ULONG_MOD := by decide
  have h1 : ((a * s) % ULONG_MOD) % Alignment = 0 := by
    rw [Nat.mod_mod_of_dvd _ hd]
    exact mul_mod_align a hs
  have hA : Alignment = 16 := by decide
  rw [hA] at hb h1 ⊢
  omega

/-- C7 (counterexample): the repo of `Size = 4096` with the 48-byte header placed
at the 16-aligned address 4096 and constructed with `objectSize = 24` has
capacity 168; its first `malloc(24)` returns 4144 and its second one ends in
the alignment assertion, the slot address 4168 not being a multiple of 16. -/
theorem C7_counterexample_alignment_assert :
    ∃ r0 r1, Repo.new 4096 sizeofRepoHeader 4096 24 = .ok r0 ∧
      4096 % Alignment = 0 ∧ r0.getNumberOfObjects = 168 ∧
      r0.malloc 24 = .ok (4144, r1) ∧ r1.malloc 24 = .fault .assertAlignment ∧
      4168 % Alignment ≠ 0 :=
  ⟨_, _, rfl, by decide, by decide, rfl, by decide, by decide⟩

/-- C7 (amended): when the repo is placed at an `Alignment`-aligned address, the
header size is a multiple of `Alignment` (as the 48-byte header is) and
`objectSize` is a multiple of `Alignment`, then in every state reached from the
constructed repo no `malloc` ends in the alignment assertion, and every address
that `malloc` returns is a multiple of `Alignment = 2 * sizeof(unsigned long) = 16`. -/
theorem C7_alignment_never_fails (Size hdr thisAddr objectSize : Nat) (r0 r : Repo)
    (hthis : thisAddr % Alignment = 0) (hhdr : hdr % Alignment = 0)
    (hos : objectSize % Alignment = 0)
    (h0 : Repo.new Size hdr thisAddr objectSize = .ok r0) (hr : Reachable r0 r) :
    Alignment = 16 ∧
    ∀ sz, r.malloc sz ≠ .fault .assertAlignment ∧
      ∀ p r1, r.malloc sz = .ok (p, r1) → p % Alignment = 0 := by
  have hi := inv_reachable h0 hr
  obtain ⟨_, _, _, _, _, ho, _, hbs⟩ := new_ok_inv h0
  have hA : Alignment = 16 := by decide
  have hb : r.bufferStart % Alignment = 0 := by
    rw [hi.buf, hbs, hA]; rw [hA] at hthis hhdr; omega
  have hs : r.objectSize % Alignment = 0 := by
    rw [hi.osz, ho, Nat.mod_mod_of_dvd _ (by decide : Alignment ∣ UINT_MOD)]
    exact hos
  refine ⟨hA, fun sz => ⟨?_, ?_⟩⟩
  · intro hfault
    exact (malloc_fault_align hfault).2 (slot_aligned hb hs)
  · intro p r1 hm
    obtain ⟨_, c | c⟩ := malloc_ok_inv hm
    · rw [c.2.1]; decide
    · exact c.2.2.2.2.1

/-- C7 (witness): the repo of `Size = 240` with the 48-byte header at address 4096
and `objectSize = 64`, after one allocation. -/
theorem C7_alignment_never_fails_witness :
    (4096 % Alignment = 0 ∧ sizeofRepoHeader % Alignment = 0 ∧ 64 % Alignment = 0 ∧
      Repo.new 240 sizeofRepoHeader 4096 64 = .ok ⟨⟨64, 3, 0, 0, MAGIC_NUMBER, 0⟩, 4144⟩ ∧
      Reachable ⟨⟨64, 3, 0, 0, MAGIC_NUMBER, 0⟩, 4144⟩
        ⟨⟨64, 3, 1, 0, MAGIC_NUMBER, 0⟩, 4144⟩) ∧
    (Alignment = 16 ∧
    ∀ sz, (⟨⟨64, 3, 1, 0, MAGIC_NUMBER, 0⟩, 4144⟩ : Repo).malloc sz ≠ .fault .assertAlignment ∧
      ∀ p r1, (⟨⟨64, 3, 1, 0, MAGIC_NUMBER, 0⟩, 4144⟩ : Repo).malloc sz = .ok (p, r1) →
        p % Alignment = 0) :=
  ⟨⟨by decide, by decide, by decide, by decide, ⟨[.malloc 64], [.ptr 4144], by decide⟩⟩,
    C7_alignment_never_fails 240 sizeofRepoHeader 4096 64
      ⟨⟨64, 3, 0, 0, MAGIC_NUMBER, 0⟩, 4144⟩ ⟨⟨64, 3, 1, 0, MAGIC_NUMBER, 0⟩, 4144⟩
      (by decide) (by decide) (by decide) (by decide)
      ⟨[.malloc 64], [.ptr 4144], by decide⟩⟩

/-! ## Claims C8, C9 and C10 -/

/-- C8: after any history of `malloc` and `free` calls on a constructed repo,
`isFull()` is true if and only if the number of successful allocations since
the last reset (construction counting as a reset) is exactly
`numberOfObjects`. -/
theorem C8_isFull_iff (Size hdr thisAddr objectSize : Nat) (r0 r : Repo) (ops : List Op)
    (rets : List Ret) (hthis : 0 < thisAddr)
    (h0 : Repo.new Size hdr thisAddr objectSize = .ok r0)
    (hr : run r0 ops = .ok (rets, r)) :
    r.isFull = true ↔ allocsSinceReset 0 rets = r0.getNumberOfObjects := by
  have hi := inv_new h0
  obtain ⟨_, ha, _, _, _, _, _, hbs⟩ := new_ok_inv h0
  have hb : 0 < r0.bufferStart := by rw [hbs]; omega
  obtain ⟨g, _⟩ := run_ghost hi hb hr
  have hn := (inv_run hi hr).nobj
  rw [ha] at g
  unfold RepoHeader.isFull RepoHeader.getNumberOfObjects
  rw [g, hn]
  simp

/-- C8 (witness): the repo of `Size = 240` (capacity 3) after the history
`malloc, malloc, free, malloc, malloc`: three successful allocations, full. -/
theorem C8_isFull_iff_witness :
    (0 < 4096 ∧
      Repo.new 240 sizeofRepoHeader 4096 64 = .ok ⟨⟨64, 3, 0, 0, MAGIC_NUMBER, 0⟩, 4144⟩ ∧
      run ⟨⟨64, 3, 0, 0, MAGIC_NUMBER, 0⟩, 4144⟩
          [.malloc 64, .malloc 64, .free 4144, .malloc 64, .malloc 64] =
        .ok ([.ptr 4144, .ptr 4208, .flag false, .ptr 4272, .ptr 0],
          ⟨⟨64, 3, 3, 1, MAGIC_NUMBER, 0⟩, 4144⟩)) ∧
    ((⟨⟨64, 3, 3, 1, MAGIC_NUMBER, 0⟩, 4144⟩ : Repo).isFull = true ↔
      allocsSinceReset 0 [.ptr 4144, .ptr 4208, .flag false, .ptr 4272, .ptr 0] =
        (⟨⟨64, 3, 0, 0, MAGIC_NUMBER, 0⟩, 4144⟩ : Repo).getNumberOfObjects) :=
  ⟨⟨by decide, by decide, by decide⟩,
    C8_isFull_iff 240 sizeofRepoHeader 4096 64 ⟨⟨64, 3, 0, 0, MAGIC_NUMBER, 0⟩, 4144⟩
      ⟨⟨64, 3, 3, 1, MAGIC_NUMBER, 0⟩, 4144⟩
      [.malloc 64, .malloc 64, .free 4144, .malloc 64, .malloc 64]
      [.ptr 4144, .ptr 4208, .flag false, .ptr 4272, .ptr 0]
      (by decide) (by decide) (by decide)⟩

/-- C9: after any history of `malloc` and `free` calls on a constructed repo,
`isEmpty()` is true if and only if no successful allocation has occurred since
the last reset or `numberOfObjects` frees have occurred since the last reset;
`isEmpty()` is true right after construction and right after a `free` that
returned `true`. -/
theorem C9_isEmpty_iff (Size hdr thisAddr objectSize : Nat) (r0 r : Repo) (ops : List Op)
    (rets : List Ret) (hthis : 0 < thisAddr)
    (h0 : Repo.new Size hdr thisAddr objectSize = .ok r0)
    (hr : run r0 ops = .ok (rets, r)) :
    (r.isEmpty = true ↔
      allocsSinceReset 0 rets = 0 ∨ freesSinceReset 0 rets = r0.getNumberOfObjects) ∧
    r0.isEmpty = true ∧
    (∀ q r1, r.free q = .ok (true, r1) → r1.isEmpty = true) := by
  have hi := inv_new h0
  obtain ⟨_, ha, hf, _, _, _, _, hbs⟩ := new_ok_inv h0
  have hb : 0 < r0.bufferStart := by rw [hbs]; omega
  obtain ⟨g1, g2⟩ := run_ghost hi hb hr
  have hir := inv_run hi hr
  have hn := hir.nobj
  rw [ha] at g1
  rw [hf] at g2
  refine ⟨?_, ?_, ?_⟩
  · unfold RepoHeader.isEmpty RepoHeader.getNumberOfObjects
    rw [g1, g2, hn]
    simp [or_comm]
  · simp [RepoHeader.isEmpty, ha]
  · intro q r1 hfree
    rcases free_spec hir hfree with ⟨_, _, a1, _⟩ | ⟨hx, _, _, _⟩
    · simp [RepoHeader.isEmpty, a1]
    · cases hx

/-- C9 (witness): the repo of `Size = 240` (capacity 3) after three allocations
and two frees, where `isEmpty()` is false. -/
theorem C9_isEmpty_iff_witness :
    (0 < 4096 ∧
      Repo.new 240 sizeofRepoHeader 4096 64 = .ok ⟨⟨64, 3, 0, 0, MAGIC_NUMBER, 0⟩, 4144⟩ ∧
      run ⟨⟨64, 3, 0, 0, MAGIC_NUMBER, 0⟩, 4144⟩
          [.malloc 64, .malloc 64, .malloc 64, .free 4144, .free 4208] =
        .ok ([.ptr 4144, .ptr 4208, .ptr 4272, .flag false, .flag false],
          ⟨⟨64, 3, 3, 2, MAGIC_NUMBER, 0⟩, 4144⟩)) ∧
    (((⟨⟨64, 3, 3, 2, MAGIC_NUMBER, 0⟩, 4144⟩ : Repo).isEmpty = true ↔
      allocsSinceReset 0 [.ptr 4144, .ptr 4208, .ptr 4272, .flag false, .flag false] = 0 ∨
      freesSinceReset 0 [.ptr 4144, .ptr 4208, .ptr 4272, .flag false, .flag false] =
        (⟨⟨64, 3, 0, 0, MAGIC_NUMBER, 0⟩, 4144⟩ : Repo).getNumberOfObjects) ∧
    (⟨⟨64, 3, 0, 0, MAGIC_NUMBER, 0⟩, 4144⟩ : Repo).isEmpty = true ∧
    (∀ q r1, (⟨⟨64, 3, 3, 2, MAGIC_NUMBER, 0⟩, 4144⟩ : Repo).free q = .ok (true, r1) →
      r1.isEmpty = true)) :=
  ⟨⟨by decide, by decide, by decide⟩,
    C9_isEmpty_iff 240 sizeofRepoHeader 4096 64 ⟨⟨64, 3, 0, 0, MAGIC_NUMBER, 0⟩, 4144⟩
      ⟨⟨64, 3, 3, 2, MAGIC_NUMBER, 0⟩, 4144⟩
      [.malloc 64, .malloc 64, .malloc 64, .free 4144, .free 4208]
      [.ptr 4144, .ptr 4208, .ptr 4272, .flag false, .flag false]
      (by decide) (by decide) (by decide)⟩

/-- C10: for a region size above the header size and every `objectSize` larger
than `Size - hdr`, the constructor returns a repo with `numberOfObjects = 0`
for which `isFull()` is true at once, and in every state reached from it
`malloc` returns null and changes nothing. -/
theorem C10_zero_capacity (Size hdr thisAddr objectSize : Nat) (hS : hdr < Size)
    (h64 : Size < ULONG_MOD) (hbig : Size - hdr < objectSize) :
    ∃ r0, Repo.new Size hdr thisAddr objectSize = .ok r0 ∧
      r0.getNumberOfObjects = 0 ∧ r0.isFull = true ∧
      ∀ r, Reachable r0 r → ∀ sz, r.malloc sz = .ok (nullptr, r) := by
  obtain ⟨r0, h0⟩ := new_ok_of_pos Size hdr thisAddr objectSize (by omega)
  obtain ⟨_, ha, _, _, _, _, hn, _⟩ := new_ok_inv h0
  have hsub : (Size + ULONG_MOD - hdr) % ULONG_MOD = Size - hdr := by
    have e : Size + ULONG_MOD - hdr = (Size - hdr) + ULONG_MOD := by omega
    rw [e, Nat.add_mod_right, Nat.mod_eq_of_lt (by omega)]
  rw [hsub, Nat.div_eq_of_lt hbig, Nat.zero_mod] at hn
  refine ⟨r0, h0, hn, by simp [RepoHeader.isFull, ha, hn], ?_⟩
  intro r hr sz
  have hi := inv_reachable h0 hr
  have hv : r.isValid = true := by simp [RepoHeader.isValid, hi.magic]
  have hle := hi.alloc_le
  have hfull : r.isFull = true := by
    have h1 : r.allocated = 0 := by omega
    have h2 : r.numberOfObjects = 0 := by rw [hi.nobj, hn]
    simp [RepoHeader.isFull, h1, h2]
  exact malloc_full sz hv hfull

/-- C10 (witness): `Size = 104` with the 48-byte header leaves 56 bytes, and
`objectSize = 64` does not fit. -/
theorem C10_zero_capacity_witness :
    (sizeofRepoHeader < 104 ∧ 104 < ULONG_MOD ∧ 104 - sizeofRepoHeader < 64) ∧
    ∃ r0, Repo.new 104 sizeofRepoHeader 4096 64 = .ok r0 ∧
      r0.getNumberOfObjects = 0 ∧ r0.isFull = true ∧
      ∀ r, Reachable r0 r → ∀ sz, r.malloc sz = .ok (nullptr, r) :=
  ⟨by decide, C10_zero_capacity 104 sizeofRepoHeader 4096 64 (by decide) (by decide)
    (by decide)⟩

/-! ## Claims C11, C13 and C14 -/

/-- C11: for every repo state and every pointer `p`, `isValid()` is true exactly
when the stored tag is the sentinel `MAGIC_NUMBER`; `getSize(p)` returns the
stored object size when `isValid()` is true and `0` otherwise, whatever `p` is;
so with a corrupted tag `isValid()` is false and `getSize` is `0` (and
`getBaseSize` stops at its check). -/
theorem C11_isValid_getSize (r : Repo) (p : Nat) :
    (r.isValid = true ↔ r.magic = MAGIC_NUMBER) ∧
    (r.isValid = true → r.getSize p = .ok r.getObjectSize) ∧
    (r.isValid = false → r.getSize p = .ok 0) ∧
    (∀ q, r.getSize q = r.getSize p) ∧
    (r.magic ≠ MAGIC_NUMBER →
      r.isValid = false ∧ r.getSize p = .ok 0 ∧ r.getBaseSize = .fault .assertIsValid) := by
  have hiff : r.isValid = true ↔ r.magic = MAGIC_NUMBER := by simp [RepoHeader.isValid]
  refine ⟨hiff, ?_, ?_, fun q => rfl, ?_⟩
  · intro hv
    simp [Repo.getSize, RepoHeader.getBaseSize, hv, RepoHeader.getObjectSize]
  · intro hv
    simp [Repo.getSize, hv]
  · intro hm
    have hv : r.isValid = false := by simp [RepoHeader.isValid, hm]
    exact ⟨hv, by simp [Repo.getSize, hv], by simp [RepoHeader.getBaseSize, hv]⟩

/-- C13: in every state, whatever its tag and counters, every `malloc` that
returns and every `free` that returns leaves `getObjectSize()`,
`getNumberOfObjects()`, `isValid()`, `getNext()` and the buffer address as they
were, also when the `free` returns `true` and resets the counters; and
`setNext(p)` changes only the link, so that `getNext()` then returns `p`. -/
theorem C13_frame (r : Repo) (l : Nat) :
    (∀ sz p r1, r.malloc sz = .ok (p, r1) →
      r1.getObjectSize = r.getObjectSize ∧ r1.getNumberOfObjects = r.getNumberOfObjects ∧
      r1.isValid = r.isValid ∧ r1.getNext = r.getNext ∧ r1.bufferStart = r.bufferStart) ∧
    (∀ q b r2, r.free q = .ok (b, r2) →
      r2.getObjectSize = r.getObjectSize ∧ r2.getNumberOfObjects = r.getNumberOfObjects ∧
      r2.isValid = r.isValid ∧ r2.getNext = r.getNext ∧ r2.bufferStart = r.bufferStart) ∧
    ((r.setNext l).getNext = l ∧ (r.setNext l).getObjectSize = r.getObjectSize ∧
      (r.setNext l).getNumberOfObjects = r.getNumberOfObjects ∧
      (r.setNext l).getAllocated = r.getAllocated ∧ (r.setNext l).getFreed = r.getFreed ∧
      (r.setNext l).isValid = r.isValid) := by
  refine ⟨?_, ?_, ⟨rfl, rfl, rfl, rfl, rfl, rfl⟩⟩
  · intro sz p r1 hm
    obtain ⟨_, c | c⟩ := malloc_ok_inv hm
    · rw [c.2.2]; exact ⟨rfl, rfl, rfl, rfl, rfl⟩
    · rw [c.2.2.2.2.2]; exact ⟨rfl, rfl, rfl, rfl, rfl⟩
  · intro q b r2 hf
    obtain ⟨_, _, _, hr⟩ := free_ok_inv hf
    subst hr
    refine ⟨?_, ?_, ?_, ?_, rfl⟩
    · show (r.toRepoHeader.incFreed.2).objectSize = r.objectSize
      rw [incFreed_eq]; split <;> rfl
    · show (r.toRepoHeader.incFreed.2).numberOfObjects = r.numberOfObjects
      rw [incFreed_eq]; split <;> rfl
    · show (r.toRepoHeader.incFreed.2).isValid = r.isValid
      rw [incFreed_eq]; split <;> rfl
    · show (r.toRepoHeader.incFreed.2).next = r.next
      rw [incFreed_eq]; split <;> rfl

/-- C13 (witness): three states.  The repo of `Size = 240` (capacity 3,
`objectSize = 64`) with one object allocated, where `malloc` returns the second
slot; the same repo with three allocated and two freed, where `free` returns
`true` and resets; and the repo of `Size = 4096` with `objectSize = 24` after
one allocation, where `malloc` ends in the alignment check and `free` returns
`false`.  In the last state, and in one with a corrupted tag, `setNext` stores
the link. -/
theorem C13_frame_witness :
    ((⟨⟨64, 3, 1, 0, MAGIC_NUMBER, 0⟩, 4144⟩ : Repo).malloc 64 =
        .ok (4208, ⟨⟨64, 3, 2, 0, MAGIC_NUMBER, 0⟩, 4144⟩) ∧
      (⟨⟨64, 3, 3, 2, MAGIC_NUMBER, 0⟩, 4144⟩ : Repo).free 4208 =
        .ok (true, ⟨⟨64, 3, 0, 0, MAGIC_NUMBER, 0⟩, 4144⟩) ∧
      (⟨⟨24, 168, 1, 0, MAGIC_NUMBER, 0⟩, 4144⟩ : Repo).malloc 24 = .fault .assertAlignment ∧
      (⟨⟨24, 168, 1, 0, MAGIC_NUMBER, 0⟩, 4144⟩ : Repo).free 4144 =
        .ok (false, ⟨⟨24, 168, 1, 1, MAGIC_NUMBER, 0⟩, 4144⟩)) ∧
    ((⟨⟨64, 3, 2, 0, MAGIC_NUMBER, 0⟩, 4144⟩ : Repo).getObjectSize =
        (⟨⟨64, 3, 1, 0, MAGIC_NUMBER, 0⟩, 4144⟩ : Repo).getObjectSize ∧
      (⟨⟨64, 3, 2, 0, MAGIC_NUMBER, 0⟩, 4144⟩ : Repo).getNumberOfObjects =
        (⟨⟨64, 3, 1, 0, MAGIC_NUMBER, 0⟩, 4144⟩ : Repo).getNumberOfObjects ∧
      (⟨⟨64, 3, 2, 0, MAGIC_NUMBER, 0⟩, 4144⟩ : Repo).isValid =
        (⟨⟨64, 3, 1, 0, MAGIC_NUMBER, 0⟩, 4144⟩ : Repo).isValid ∧
      (⟨⟨64, 3, 2, 0, MAGIC_NUMBER, 0⟩, 4144⟩ : Repo).getNext =
        (⟨⟨64, 3, 1, 0, MAGIC_NUMBER, 0⟩, 4144⟩ : Repo).getNext ∧
      (⟨⟨64, 3, 2, 0, MAGIC_NUMBER, 0⟩, 4144⟩ : Repo).bufferStart =
        (⟨⟨64, 3, 1, 0, MAGIC_NUMBER, 0⟩, 4144⟩ : Repo).bufferStart) ∧
    ((⟨⟨64, 3, 0, 0, MAGIC_NUMBER, 0⟩, 4144⟩ : Repo).getObjectSize =
        (⟨⟨64, 3, 3, 2, MAGIC_NUMBER, 0⟩, 4144⟩ : Repo).getObjectSize ∧
      (⟨⟨64, 3, 0, 0, MAGIC_NUMBER, 0⟩, 4144⟩ : Repo).getNumberOfObjects =
        (⟨⟨64, 3, 3, 2, MAGIC_NUMBER, 0⟩, 4144⟩ : Repo).getNumberOfObjects ∧
      (⟨⟨64, 3, 0, 0, MAGIC_NUMBER, 0⟩, 4144⟩ : Repo).isValid =
        (⟨⟨64, 3, 3, 2, MAGIC_NUMBER, 0⟩, 4144⟩ : Repo).isValid ∧
      (⟨⟨64, 3, 0, 0, MAGIC_NUMBER, 0⟩, 4144⟩ : Repo).getNext =
        (⟨⟨64, 3, 3, 2, MAGIC_NUMBER, 0⟩, 4144⟩ : Repo).getNext ∧
      (⟨⟨64, 3, 0, 0, MAGIC_NUMBER, 0⟩, 4144⟩ : Repo).bufferStart =
        (⟨⟨64, 3, 3, 2, MAGIC_NUMBER, 0⟩, 4144⟩ : Repo).bufferStart) ∧
    ((⟨⟨24, 168, 1, 1, MAGIC_NUMBER, 0⟩, 4144⟩ : Repo).getObjectSize =
        (⟨⟨24, 168, 1, 0, MAGIC_NUMBER, 0⟩, 4144⟩ : Repo).getObjectSize ∧
      (⟨⟨24, 168, 1, 1, MAGIC_NUMBER, 0⟩, 4144⟩ : Repo).getNumberOfObjects =
        (⟨⟨24, 168, 1, 0, MAGIC_NUMBER, 0⟩, 4144⟩ : Repo).getNumberOfObjects ∧
      (⟨⟨24, 168, 1, 1, MAGIC_NUMBER, 0⟩, 4144⟩ : Repo).isValid =
        (⟨⟨24, 168, 1, 0, MAGIC_NUMBER, 0⟩, 4144⟩ : Repo).isValid ∧
      (⟨⟨24, 168, 1, 1, MAGIC_NUMBER, 0⟩, 4144⟩ : Repo).getNext =
        (⟨⟨24, 168, 1, 0, MAGIC_NUMBER, 0⟩, 4144⟩ : Repo).getNext ∧
      (⟨⟨24, 168, 1, 1, MAGIC_NUMBER, 0⟩, 4144⟩ : Repo).bufferStart =
        (⟨⟨24, 168, 1, 0, MAGIC_NUMBER, 0⟩, 4144⟩ : Repo).bufferStart) ∧
    (((⟨⟨24, 168, 1, 0, MAGIC_NUMBER, 0⟩, 4144⟩ : Repo).setNext 8192).getNext = 8192 ∧
      ((⟨⟨24, 168, 1, 0, MAGIC_NUMBER, 0⟩, 4144⟩ : Repo).setNext 8192).getObjectSize =
        (⟨⟨24, 168, 1, 0, MAGIC_NUMBER, 0⟩, 4144⟩ : Repo).getObjectSize ∧
      ((⟨⟨24, 168, 1, 0, MAGIC_NUMBER, 0⟩, 4144⟩ : Repo).setNext 8192).getNumberOfObjects =
        (⟨⟨24, 168, 1, 0, MAGIC_NUMBER, 0⟩, 4144⟩ : Repo).getNumberOfObjects ∧
      ((⟨⟨24, 168, 1, 0, MAGIC_NUMBER, 0⟩, 4144⟩ : Repo).setNext 8192).getAllocated =
        (⟨⟨24, 168, 1, 0, MAGIC_NUMBER, 0⟩, 4144⟩ : Repo).getAllocated ∧
      ((⟨⟨24, 168, 1, 0, MAGIC_NUMBER, 0⟩, 4144⟩ : Repo).setNext 8192).getFreed =
        (⟨⟨24, 168, 1, 0, MAGIC_NUMBER, 0⟩, 4144⟩ : Repo).getFreed ∧
      ((⟨⟨24, 168, 1, 0, MAGIC_NUMBER, 0⟩, 4144⟩ : Repo).setNext 8192).isValid =
        (⟨⟨24, 168, 1, 0, MAGIC_NUMBER, 0⟩, 4144⟩ : Repo).isValid) ∧
    (((⟨⟨64, 3, 1, 0, 0, 0⟩, 4144⟩ : Repo).setNext 8192).getNext = 8192 ∧
      ((⟨⟨64, 3, 1, 0, 0, 0⟩, 4144⟩ : Repo).setNext 8192).getObjectSize =
        (⟨⟨64, 3, 1, 0, 0, 0⟩, 4144⟩ : Repo).getObjectSize ∧
      ((⟨⟨64, 3, 1, 0, 0, 0⟩, 4144⟩ : Repo).setNext 8192).getNumberOfObjects =
        (⟨⟨64, 3, 1, 0, 0, 0⟩, 4144⟩ : Repo).getNumberOfObjects ∧
      ((⟨⟨64, 3, 1, 0, 0, 0⟩, 4144⟩ : Repo).setNext 8192).getAllocated =
        (⟨⟨64, 3, 1, 0, 0, 0⟩, 4144⟩ : Repo).getAllocated ∧
      ((⟨⟨64, 3, 1, 0, 0, 0⟩, 4144⟩ : Repo).setNext 8192).getFreed =
        (⟨⟨64, 3, 1, 0, 0, 0⟩, 4144⟩ : Repo).getFreed ∧
      ((⟨⟨64, 3, 1, 0, 0, 0⟩, 4144⟩ : Repo).setNext 8192).isValid =
        (⟨⟨64, 3, 1, 0, 0, 0⟩, 4144⟩ : Repo).isValid) :=
  ⟨⟨by decide, by decide, by decide, by decide⟩,
    (C13_frame ⟨⟨64, 3, 1, 0, MAGIC_NUMBER, 0⟩, 4144⟩ 8192).1 64 4208
      ⟨⟨64, 3, 2, 0, MAGIC_NUMBER, 0⟩, 4144⟩ (by decide),
    (C13_frame ⟨⟨64, 3, 3, 2, MAGIC_NUMBER, 0⟩, 4144⟩ 8192).2.1 4208 true
      ⟨⟨64, 3, 0, 0, MAGIC_NUMBER, 0⟩, 4144⟩ (by decide),
    (C13_frame ⟨⟨24, 168, 1, 0, MAGIC_NUMBER, 0⟩, 4144⟩ 8192).2.1 4144 false
      ⟨⟨24, 168, 1, 1, MAGIC_NUMBER, 0⟩, 4144⟩ (by decide),
    (C13_frame ⟨⟨24, 168, 1, 0, MAGIC_NUMBER, 0⟩, 4144⟩ 8192).2.2,
    (C13_frame ⟨⟨64, 3, 1, 0, 0, 0⟩, 4144⟩ 8192).2.2⟩

/-- C14 (counterexample): constructing with a region size equal to the header
size (`Size = 48`) returns a header with capacity `0`, and with a region size
below it (`Size = 40`) returns a header with capacity `4294967295`; neither is
rejected. -/
theorem C14_counterexample_small_region_accepted :
    (∃ h, RepoHeader.new 48 sizeofRepoHeader 64 = .ok h ∧ h.getNumberOfObjects = 0) ∧
    (∃ h, RepoHeader.new 40 sizeofRepoHeader 64 = .ok h ∧
      h.getNumberOfObjects = 4294967295) :=
  ⟨⟨_, rfl, by decide⟩, ⟨_, rfl, by decide⟩⟩

/-- C14 (amended): the constructor does not check the region size.  For every
region size, whether or not it exceeds the header size, and every `objectSize`
other than zero it returns a valid header, whose capacity is the
`unsigned long` difference `Size - hdr` divided by `objectSize` and narrowed to
`unsigned int`: `0` when `Size = hdr`, and the quotient of the wrapped-around
difference `2^64 + Size - hdr` when `Size < hdr`.  Nothing is stated for
`objectSize = 0`. -/
theorem C14_new_unchecked (Size hdr objectSize : Nat) (hpos : objectSize ≠ 0) :
    ∃ h, RepoHeader.new Size hdr objectSize = .ok h ∧
      h.getNumberOfObjects =
        (((Size + ULONG_MOD - hdr) % ULONG_MOD) / objectSize) % UINT_MOD ∧
      (Size = hdr → h.getNumberOfObjects = 0) ∧
      (Size < hdr → hdr ≤ ULONG_MOD →
        h.getNumberOfObjects = ((ULONG_MOD + Size - hdr) / objectSize) % UINT_MOD) ∧
      h.isValid = true ∧ h.getAllocated = 0 ∧ h.getFreed = 0 := by
  refine ⟨⟨objectSize % UINT_MOD,
      (((Size + ULONG_MOD - hdr) % ULONG_MOD) / objectSize) % UINT_MOD, 0, 0, MAGIC_NUMBER,
      nullptr⟩, by simp only [RepoHeader.new, hpos, if_false], rfl, ?_, ?_,
      by simp [RepoHeader.isValid], rfl, rfl⟩
  · intro he
    subst he
    show (((Size + ULONG_MOD - Size) % ULONG_MOD) / objectSize) % UINT_MOD = 0
    rw [Nat.add_sub_cancel_left, Nat.mod_self, Nat.zero_div, Nat.zero_mod]
  · intro hlt hle
    show (((Size + ULONG_MOD - hdr) % ULONG_MOD) / objectSize) % UINT_MOD = _
    have h1 : Size + ULONG_MOD - hdr < ULONG_MOD := by omega
    rw [Nat.mod_eq_of_lt h1, Nat.add_comm Size ULONG_MOD]

/-- C14 (witness): a region of exactly the header size, `Size = 48`, with
`objectSize = 64`. -/
theorem C14_new_unchecked_witness :
    64 ≠ 0 ∧
    ∃ h, RepoHeader.new 48 sizeofRepoHeader 64 = .ok h ∧
      h.getNumberOfObjects =
        (((48 + ULONG_MOD - sizeofRepoHeader) % ULONG_MOD) / 64) % UINT_MOD ∧
      (48 = sizeofRepoHeader → h.getNumberOfObjects = 0) ∧
      (48 < sizeofRepoHeader → sizeofRepoHeader ≤ ULONG_MOD →
        h.getNumberOfObjects = ((ULONG_MOD + 48 - sizeofRepoHeader) / 64) % UINT_MOD) ∧
      h.isValid = true ∧ h.getAllocated = 0 ∧ h.getFreed = 0 :=
  ⟨by decide, C14_new_unchecked 48 sizeofRepoHeader 64 (by decide)⟩

/-! ## Claims C12, C16 and C17: the counters and the bounds check -/

/-- In every state reached from a constructed repo `allocated` is at most the
capacity, and `freed` is below the capacity when that is at least one. -/
theorem counters_bounded {Size hdr t os : Nat} {r0 r : Repo}
    (h0 : Repo.new Size hdr t os = .ok r0) (hr : Reachable r0 r) :
    r.allocated ≤ r.numberOfObjects ∧ (1 ≤ r.numberOfObjects → r.freed < r.numberOfObjects) := by
  have hi := inv_reachable h0 hr
  refine ⟨by rw [hi.nobj]; exact hi.alloc_le, ?_⟩
  intro h1
  rw [hi.nobj] at h1 ⊢
  rcases hi.freed_lt with hf | hf
  · exact hf
  · omega

/-- With a capacity of at least one and a last-slot offset below `2^32`,
`inBounds` is the range check from the first to the last slot address. -/
theorem inBounds_range {r : Repo} (hv : r.isValid = true) (hn : 1 ≤ r.numberOfObjects)
    (hlt : r.numberOfObjects < UINT_MOD)
    (hw : (r.numberOfObjects - 1) * r.objectSize < UINT_MOD) (p : Nat) :
    r.inBounds p = .ok (decide (r.bufferStart ≤ p) &&
      decide (p ≤ r.bufferStart + (r.numberOfObjects - 1) * r.objectSize)) := by
  have hn1 : (r.numberOfObjects + UINT_MOD - 1) % UINT_MOD = r.numberOfObjects - 1 := by
    have e : r.numberOfObjects + UINT_MOD - 1 = (r.numberOfObjects - 1) + UINT_MOD := by omega
    rw [e, Nat.add_mod_right, Nat.mod_eq_of_lt (by omega)]
  unfold Repo.inBounds
  simp only [hv, if_true, RepoHeader.getNumberOfObjects, RepoHeader.getObjectSize, hn1,
    Nat.mod_eq_of_lt hw]

/-- C12 (failing input): the repo of `Size = 104` with the 48-byte header and
`objectSize = 64` has capacity `0`; `free(bufferStart)` passes the `inBounds`
check and returns, leaving `freed = 1`, which is above `numberOfObjects = 0`. -/
theorem C12_freed_exceeds_zero_capacity :
    ∃ r0 r1, Repo.new 104 sizeofRepoHeader 4096 64 = .ok r0 ∧
      r0.getNumberOfObjects = 0 ∧ r0.inBounds r0.bufferStart = .ok true ∧
      run r0 [.free r0.bufferStart] = .ok ([.flag false], r1) ∧
      r1.getFreed = 1 ∧ r1.getNumberOfObjects = 0 ∧
      ¬ (r1.getFreed ≤ r1.getNumberOfObjects) :=
  ⟨_, _, rfl, by decide, by decide, rfl, by decide, by decide, by decide⟩

/-- C16 (counterexample): the repo of `Size = 104` with the 48-byte header and
`objectSize = 64` has capacity `0`, so right after construction `getFreed()`
equals `getNumberOfObjects()`. -/
theorem C16_counterexample_zero_capacity :
    ∃ r0, Repo.new 104 sizeofRepoHeader 4096 64 = .ok r0 ∧ Reachable r0 r0 ∧
      r0.getFreed = r0.getNumberOfObjects :=
  ⟨_, rfl, ⟨[], [], rfl⟩, by decide⟩

/-- C16 (amended): in every state reached from a constructed repo whose
capacity is at least one, `getFreed()` is below, hence never equal to,
`getNumberOfObjects()`; and in every state reached from a constructed repo of
any capacity, `isEmpty()` holds exactly when `allocated` is zero. -/
theorem C16_freed_never_capacity (Size hdr thisAddr objectSize : Nat) (r0 r : Repo)
    (h0 : Repo.new Size hdr thisAddr objectSize = .ok r0) (hr : Reachable r0 r) :
    (1 ≤ r.getNumberOfObjects →
      r.getFreed < r.getNumberOfObjects ∧ r.getFreed ≠ r.getNumberOfObjects) ∧
    (r.isEmpty = true ↔ r.getAllocated = 0) := by
  obtain ⟨hle, hlt⟩ := counters_bounded h0 hr
  constructor
  · intro h1
    have := hlt h1
    exact ⟨this, Nat.ne_of_lt this⟩
  · unfold RepoHeader.isEmpty RepoHeader.getAllocated
    rcases Nat.eq_zero_or_pos r.numberOfObjects with hz | hp
    · have ha : r.allocated = 0 := by omega
      simp [ha]
    · have := hlt hp
      have hne : r.freed ≠ r.numberOfObjects := Nat.ne_of_lt this
      simp [hne]

/-- C16 (witness): the repo of `Size = 240` (capacity 3) after two allocations
and one free. -/
theorem C16_freed_never_capacity_witness :
    (Repo.new 240 sizeofRepoHeader 4096 64 = .ok ⟨⟨64, 3, 0, 0, MAGIC_NUMBER, 0⟩, 4144⟩ ∧
      Reachable ⟨⟨64, 3, 0, 0, MAGIC_NUMBER, 0⟩, 4144⟩
        ⟨⟨64, 3, 2, 1, MAGIC_NUMBER, 0⟩, 4144⟩) ∧
    ((1 ≤ (⟨⟨64, 3, 2, 1, MAGIC_NUMBER, 0⟩, 4144⟩ : Repo).getNumberOfObjects →
      (⟨⟨64, 3, 2, 1, MAGIC_NUMBER, 0⟩, 4144⟩ : Repo).getFreed <
        (⟨⟨64, 3, 2, 1, MAGIC_NUMBER, 0⟩, 4144⟩ : Repo).getNumberOfObjects ∧
      (⟨⟨64, 3, 2, 1, MAGIC_NUMBER, 0⟩, 4144⟩ : Repo).getFreed ≠
        (⟨⟨64, 3, 2, 1, MAGIC_NUMBER, 0⟩, 4144⟩ : Repo).getNumberOfObjects) ∧
    ((⟨⟨64, 3, 2, 1, MAGIC_NUMBER, 0⟩, 4144⟩ : Repo).isEmpty = true ↔
      (⟨⟨64, 3, 2, 1, MAGIC_NUMBER, 0⟩, 4144⟩ : Repo).getAllocated = 0)) :=
  ⟨⟨by decide, ⟨[.malloc 64, .malloc 64, .free 4208], [.ptr 4144, .ptr 4208, .flag false],
      by decide⟩⟩,
    C16_freed_never_capacity 240 sizeofRepoHeader 4096 64
      ⟨⟨64, 3, 0, 0, MAGIC_NUMBER, 0⟩, 4144⟩ ⟨⟨64, 3, 2, 1, MAGIC_NUMBER, 0⟩, 4144⟩
      (by decide)
      ⟨[.malloc 64, .malloc 64, .free 4208], [.ptr 4144, .ptr 4208, .flag false], by decide⟩⟩

/-- C17 (failing input): on the repo of `Size = 104` with the 48-byte header and
`objectSize = 64`, whose capacity is `0`, `inBounds` is true of `bufferStart`
and of every address up to `bufferStart + 2^32 - 64`, the 32-bit value of
`(0 - 1) * 64`; and on the repo of `Size = 2^33 + 48` with `objectSize = 2^31`,
whose capacity is `4`, `inBounds` is false of the third slot address
`bufferStart + 2 * 2^31`, the last-slot offset `3 * 2^31` being reduced to
`2^31`. -/
theorem C17_inBounds_wraps :
    (∃ r0, Repo.new 104 sizeofRepoHeader 4096 64 = .ok r0 ∧ r0.isValid = true ∧
      r0.getNumberOfObjects = 0 ∧ r0.inBounds r0.bufferStart = .ok true ∧
      r0.inBounds (r0.bufferStart + 4294967232) = .ok true ∧
      r0.inBounds (r0.bufferStart + 4294967233) = .ok false) ∧
    (∃ r0, Repo.new 8589934640 sizeofRepoHeader 4096 2147483648 = .ok r0 ∧
      r0.isValid = true ∧ r0.getNumberOfObjects = 4 ∧ r0.getObjectSize = 2147483648 ∧
      r0.bufferStart ≤ r0.bufferStart + 2 * 2147483648 ∧
      r0.bufferStart + 2 * 2147483648 ≤
        r0.bufferStart + (r0.getNumberOfObjects - 1) * r0.getObjectSize ∧
      r0.inBounds (r0.bufferStart + 2 * 2147483648) = .ok false) :=
  ⟨⟨_, rfl, by decide, by decide, by decide, by decide, by decide⟩,
    ⟨_, rfl, by decide, by decide, by decide, by decide, by decide, by decide⟩⟩

/-! ## Claim C18: slots lie inside the buffer and do not overlap -/

/-- Two successful allocations with no reset between them are at least one
stored object size apart. -/
theorem slots_apart {n os b : Nat} {r r1 : Repo} {ops : List Op}
    {l1 l2 l3 : List Ret} {p1 p2 : Nat} (hi : Inv n os b r) (hb : 0 < b)
    (h : run r ops = .ok (l1 ++ .ptr p1 :: (l2 ++ .ptr p2 :: l3), r1))
    (hp1 : p1 ≠ nullptr) (hp2 : p2 ≠ nullptr) (hno : Ret.flag true ∉ l2) :
    p1 + os ≤ p2 := by
  have e1 := (slot_of_history hi hb h hp1).1
  have h2 : run r ops = .ok ((l1 ++ .ptr p1 :: l2) ++ .ptr p2 :: l3, r1) := by
    rw [h]; simp
  have e2 := (slot_of_history hi hb h2 hp2).1
  rw [allocs_append] at e2
  have hstep : allocsSinceReset (allocsSinceReset r.allocated l1) (.ptr p1 :: l2) =
      allocsSinceReset (allocsSinceReset r.allocated l1 + 1) l2 := by
    simp [allocsSinceReset, hp1]
  rw [hstep] at e2
  have hm := allocs_mono (allocsSinceReset r.allocated l1 + 1) l2 hno
  have hmul := Nat.mul_le_mul_right os hm
  rw [Nat.add_mul, Nat.one_mul] at hmul
  omega

/-- C18 (counterexample): the repo of `Size = 2^33 + 80` with the 48-byte header
constructed with `objectSize = 2^32 + 16` stores the object size `16` and the
capacity `2`; its two allocations return 4144 and 4160, and the byte ranges of
length `objectSize` starting there overlap. -/
theorem C18_counterexample_ranges_overlap :
    ∃ r0 r, Repo.new 8589934672 sizeofRepoHeader 4096 4294967312 = .ok r0 ∧
      sizeofRepoHeader ≤ 8589934672 ∧ 0 < 4294967312 ∧
      run r0 [.malloc 16, .malloc 16] = .ok ([.ptr 4144, .ptr 4160], r) ∧
      4144 ≠ 4160 ∧ 4160 < 4144 + 4294967312 ∧ 4144 < 4160 + 4294967312 :=
  ⟨_, _, rfl, by decide, by decide, rfl, by decide, by decide, by decide⟩

/-- C18 (amended): for `hdr ≤ Size < 2^64` and a constructed repo, every slot
handed out by `malloc` starts at an offset `o = p - bufferStart` with
`o + objectSize ≤ Size - hdr`, for the constructor argument `objectSize` and so
also for the stored object size; two allocations of the same epoch are at least
one stored object size apart, so that their byte ranges of that length are
disjoint; and the stored object size is the constructor argument when that is
below `2^32`. -/
theorem C18_slots_inside_buffer (Size hdr thisAddr objectSize : Nat) (r0 r : Repo)
    (ops : List Op) (rets : List Ret) (hS : hdr ≤ Size) (h64 : Size < ULONG_MOD)
    (hthis : 0 < thisAddr) (h0 : Repo.new Size hdr thisAddr objectSize = .ok r0)
    (hr : run r0 ops = .ok (rets, r)) :
    (∀ l1 p l3, rets = l1 ++ .ptr p :: l3 → p ≠ nullptr →
      r0.bufferStart ≤ p ∧ (p - r0.bufferStart) + objectSize ≤ Size - hdr ∧
      (p - r0.bufferStart) + r0.getObjectSize ≤ Size - hdr) ∧
    (∀ l1 p1 l2 p2 l3, rets = l1 ++ .ptr p1 :: (l2 ++ .ptr p2 :: l3) →
      p1 ≠ nullptr → p2 ≠ nullptr → Ret.flag true ∉ l2 → p1 + r0.getObjectSize ≤ p2) ∧
    (objectSize < UINT_MOD → r0.getObjectSize = objectSize) := by
  have hi := inv_new h0
  obtain ⟨_, ha, _, _, _, ho, hn, hbs⟩ := new_ok_inv h0
  have hb : 0 < r0.bufferStart := by rw [hbs]; omega
  have hsub : (Size + ULONG_MOD - hdr) % ULONG_MOD = Size - hdr := by
    have e : Size + ULONG_MOD - hdr = (Size - hdr) + ULONG_MOD := by omega
    rw [e, Nat.add_mod_right, Nat.mod_eq_of_lt (by omega)]
  rw [hsub] at hn
  refine ⟨?_, ?_, ?_⟩
  · intro l1 p l3 he hp
    rw [he] at hr
    obtain ⟨e, hlt⟩ := slot_of_history hi hb hr hp
    have hnq : r0.numberOfObjects ≤ (Size - hdr) / objectSize := by
      rw [hn]; exact Nat.mod_le _ _
    have hos : r0.objectSize ≤ objectSize := by rw [ho]; exact Nat.mod_le _ _
    have h1 : (allocsSinceReset r0.allocated l1 + 1) * objectSize ≤
        (Size - hdr) / objectSize * objectSize := Nat.mul_le_mul_right _ (by omega)
    have h2 := Nat.div_mul_le_self (Size - hdr) objectSize
    have h3 : allocsSinceReset r0.allocated l1 * r0.objectSize ≤
        allocsSinceReset r0.allocated l1 * objectSize := Nat.mul_le_mul_left _ hos
    rw [Nat.add_mul, Nat.one_mul] at h1
    have hoff : p - r0.bufferStart = allocsSinceReset r0.allocated l1 * r0.objectSize := by
      omega
    refine ⟨by omega, ?_, ?_⟩
    · rw [hoff]; omega
    · rw [hoff]; show _ + r0.objectSize ≤ _; omega
  · intro l1 p1 l2 p2 l3 he hp1 hp2 hno
    rw [he] at hr
    exact slots_apart hi hb hr hp1 hp2 hno
  · intro hlt
    show r0.objectSize = objectSize
    rw [ho, Nat.mod_eq_of_lt hlt]

/-- C18 (witness): on the repo of `Size = 4096`, `objectSize = 64` placed at
address 4096, the history `malloc, free, malloc`. -/
theorem C18_slots_inside_buffer_witness :
    (sizeofRepoHeader ≤ 4096 ∧ 4096 < ULONG_MOD ∧ 0 < 4096 ∧
      Repo.new 4096 sizeofRepoHeader 4096 64 = .ok ⟨⟨64, 63, 0, 0, MAGIC_NUMBER, 0⟩, 4144⟩ ∧
      run ⟨⟨64, 63, 0, 0, MAGIC_NUMBER, 0⟩, 4144⟩ [.malloc 64, .free 4144, .malloc 64] =
        .ok ([.ptr 4144, .flag false, .ptr 4208], ⟨⟨64, 63, 2, 1, MAGIC_NUMBER, 0⟩, 4144⟩)) ∧
    ((∀ l1 p l3, [Ret.ptr 4144, .flag false, .ptr 4208] = l1 ++ .ptr p :: l3 → p ≠ nullptr →
      (⟨⟨64, 63, 0, 0, MAGIC_NUMBER, 0⟩, 4144⟩ : Repo).bufferStart ≤ p ∧
      (p - (⟨⟨64, 63, 0, 0, MAGIC_NUMBER, 0⟩, 4144⟩ : Repo).bufferStart) + 64 ≤
        4096 - sizeofRepoHeader ∧
      (p - (⟨⟨64, 63, 0, 0, MAGIC_NUMBER, 0⟩, 4144⟩ : Repo).bufferStart) +
        (⟨⟨64, 63, 0, 0, MAGIC_NUMBER, 0⟩, 4144⟩ : Repo).getObjectSize ≤
          4096 - sizeofRepoHeader) ∧
    (∀ l1 p1 l2 p2 l3,
      [Ret.ptr 4144, .flag false, .ptr 4208] = l1 ++ .ptr p1 :: (l2 ++ .ptr p2 :: l3) →
      p1 ≠ nullptr → p2 ≠ nullptr → Ret.flag true ∉ l2 →
      p1 + (⟨⟨64, 63, 0, 0, MAGIC_NUMBER, 0⟩, 4144⟩ : Repo).getObjectSize ≤ p2) ∧
    (64 < UINT_MOD → (⟨⟨64, 63, 0, 0, MAGIC_NUMBER, 0⟩, 4144⟩ : Repo).getObjectSize = 64)) :=
  ⟨⟨by decide, by decide, by decide, by decide, by decide⟩,
    C18_slots_inside_buffer 4096 sizeofRepoHeader 4096 64
      ⟨⟨64, 63, 0, 0, MAGIC_NUMBER, 0⟩, 4144⟩ ⟨⟨64, 63, 2, 1, MAGIC_NUMBER, 0⟩, 4144⟩
      [.malloc 64, .free 4144, .malloc 64] [.ptr 4144, .flag false, .ptr 4208]
      (by decide) (by decide) (by decide) (by decide) (by decide)⟩

/-! ## Claim C19: well-formed use -/

/-- Under well-formed use `freed` never passes `allocated`. -/
theorem wf_run {n os b : Nat} (ops : List Op) :
    ∀ (r r1 : Repo) (rets : List Ret), Inv n os b r → r.freed ≤ r.allocated →
      wellFormed r ops = true → run r ops = .ok (rets, r1) → r1.freed ≤ r1.allocated := by
  induction ops with
  | nil =>
    intro r r1 rets _ hle _ h
    simp only [run] at h
    injection h with h
    injection h with _ h2
    rw [← h2]; exact hle
  | cons op ops ih =>
    intro r r1 rets hi hle hwf h
    obtain ⟨x, ra, xs, hs, hr, _⟩ := run_cons_ok h
    simp only [wellFormed, hs, Bool.and_eq_true] at hwf
    obtain ⟨hop, hrest⟩ := hwf
    have hia := inv_step hi hs
    refine ih ra r1 xs hia ?_ hrest hr
    cases op with
    | malloc sz =>
      obtain ⟨p, _, hm⟩ := step_malloc_ok hs
      rcases malloc_spec hi hm with ⟨_, he, _⟩ | ⟨_, _, _, ha, hf, _, _⟩
      · rw [he]; exact hle
      · omega
    | free q =>
      have hlive : r.freed < r.allocated := by
        simpa [RepoHeader.getFreed, RepoHeader.getAllocated] using hop
      obtain ⟨y, _, hm⟩ := step_free_ok hs
      rcases free_spec hi hm with ⟨_, _, ha, hf⟩ | ⟨_, _, ha, hf⟩
      · omega
      · omega

/-- C19: under well-formed use (`free` is called only while `freed < allocated`)
of a constructed repo with capacity `n` (any capacity, in particular `n ≥ 1`),
`freed ≤ allocated ≤ n` holds in every state reached, and a well-formed `free`
that returns `true` was called on a full repo with exactly one live object
(`allocated = n`, `freed = n - 1`) and leaves both counters at zero. -/
theorem C19_reset_only_when_drained (Size hdr thisAddr objectSize : Nat) (r0 r : Repo)
    (ops : List Op) (rets : List Ret)
    (h0 : Repo.new Size hdr thisAddr objectSize = .ok r0)
    (hwf : wellFormed r0 ops = true)
    (hr : run r0 ops = .ok (rets, r)) :
    r.getFreed ≤ r.getAllocated ∧ r.getAllocated ≤ r.getNumberOfObjects ∧
    r.getNumberOfObjects = r0.getNumberOfObjects ∧
    (∀ q r1, r.getFreed < r.getAllocated → r.free q = .ok (true, r1) →
      r.isFull = true ∧ r.getAllocated = r.getNumberOfObjects ∧
      r.getFreed = r.getNumberOfObjects - 1 ∧ r.getAllocated - r.getFreed = 1 ∧
      r1.getAllocated = 0 ∧ r1.getFreed = 0) := by
  have hi0 := inv_new h0
  obtain ⟨_, ha0, hf0, _, _, _, _, _⟩ := new_ok_inv h0
  have hi := inv_run hi0 hr
  have hle : r.freed ≤ r.allocated :=
    wf_run ops r0 r rets hi0 (by rw [ha0, hf0]) hwf hr
  have hal := hi.alloc_le
  have hnobj := hi.nobj
  have hlt := hi.n_lt
  refine ⟨hle, by show r.allocated ≤ r.numberOfObjects; omega, hnobj, ?_⟩
  intro q r1 hlive hfree
  have hlive1 : r.freed < r.allocated := hlive
  rcases free_spec hi hfree with ⟨_, hc, a1, f1⟩ | ⟨hx, _, _, _⟩
  · have hmod : (r.freed + 1) % UINT_MOD = r.freed + 1 := Nat.mod_eq_of_lt (by omega)
    rw [hmod] at hc
    have hfull : r.allocated = r.numberOfObjects := by omega
    refine ⟨by simp [RepoHeader.isFull, hfull], hfull, ?_, ?_, a1, f1⟩
    · show r.freed = r.numberOfObjects - 1; omega
    · show r.allocated - r.freed = 1; omega
  · cases hx

/-- C19 (witness): the repo of `Size = 240` (capacity 3, `objectSize = 64`) after
three allocations and two frees of live objects; the third free resets it. -/
theorem C19_reset_only_when_drained_witness :
    (Repo.new 240 sizeofRepoHeader 4096 64 = .ok ⟨⟨64, 3, 0, 0, MAGIC_NUMBER, 0⟩, 4144⟩ ∧
      wellFormed ⟨⟨64, 3, 0, 0, MAGIC_NUMBER, 0⟩, 4144⟩
        [.malloc 64, .malloc 64, .free 4144, .malloc 64, .free 4272] = true ∧
      run ⟨⟨64, 3, 0, 0, MAGIC_NUMBER, 0⟩, 4144⟩
          [.malloc 64, .malloc 64, .free 4144, .malloc 64, .free 4272] =
        .ok ([.ptr 4144, .ptr 4208, .flag false, .ptr 4272, .flag false],
          ⟨⟨64, 3, 3, 2, MAGIC_NUMBER, 0⟩, 4144⟩)) ∧
    ((⟨⟨64, 3, 3, 2, MAGIC_NUMBER, 0⟩, 4144⟩ : Repo).getFreed ≤
        (⟨⟨64, 3, 3, 2, MAGIC_NUMBER, 0⟩, 4144⟩ : Repo).getAllocated ∧
      (⟨⟨64, 3, 3, 2, MAGIC_NUMBER, 0⟩, 4144⟩ : Repo).getAllocated ≤
        (⟨⟨64, 3, 3, 2, MAGIC_NUMBER, 0⟩, 4144⟩ : Repo).getNumberOfObjects ∧
      (⟨⟨64, 3, 3, 2, MAGIC_NUMBER, 0⟩, 4144⟩ : Repo).getNumberOfObjects =
        (⟨⟨64, 3, 0, 0, MAGIC_NUMBER, 0⟩, 4144⟩ : Repo).getNumberOfObjects ∧
      (∀ q r1, (⟨⟨64, 3, 3, 2, MAGIC_NUMBER, 0⟩, 4144⟩ : Repo).getFreed <
          (⟨⟨64, 3, 3, 2, MAGIC_NUMBER, 0⟩, 4144⟩ : Repo).getAllocated →
        (⟨⟨64, 3, 3, 2, MAGIC_NUMBER, 0⟩, 4144⟩ : Repo).free q = .ok (true, r1) →
        (⟨⟨64, 3, 3, 2, MAGIC_NUMBER, 0⟩, 4144⟩ : Repo).isFull = true ∧
        (⟨⟨64, 3, 3, 2, MAGIC_NUMBER, 0⟩, 4144⟩ : Repo).getAllocated =
          (⟨⟨64, 3, 3, 2, MAGIC_NUMBER, 0⟩, 4144⟩ : Repo).getNumberOfObjects ∧
        (⟨⟨64, 3, 3, 2, MAGIC_NUMBER, 0⟩, 4144⟩ : Repo).getFreed =
          (⟨⟨64, 3, 3, 2, MAGIC_NUMBER, 0⟩, 4144⟩ : Repo).getNumberOfObjects - 1 ∧
        (⟨⟨64, 3, 3, 2, MAGIC_NUMBER, 0⟩, 4144⟩ : Repo).getAllocated -
          (⟨⟨64, 3, 3, 2, MAGIC_NUMBER, 0⟩, 4144⟩ : Repo).getFreed = 1 ∧
        r1.getAllocated = 0 ∧ r1.getFreed = 0)) :=
  ⟨⟨by decide, by decide, by decide⟩,
    C19_reset_only_when_drained 240 sizeofRepoHeader 4096 64
      ⟨⟨64, 3, 0, 0, MAGIC_NUMBER, 0⟩, 4144⟩ ⟨⟨64, 3, 3, 2, MAGIC_NUMBER, 0⟩, 4144⟩
      [.malloc 64, .malloc 64, .free 4144, .malloc 64, .free 4272]
      [.ptr 4144, .ptr 4208, .flag false, .ptr 4272, .flag false]
      (by decide) (by decide) (by decide)⟩

/-! ## Claim C20: a partly used repo is not reset -/

/-- Frees of in-bounds addresses that keep `freed` below the capacity all return
`false` and only move `freed`. -/
theorem run_frees_false {n os b : Nat} (qs : List Nat) :
    ∀ r : Repo, Inv n os b r → (∀ q ∈ qs, r.inBounds q = .ok true) →
      r.freed + qs.length < n →
      ∃ r2, run r (qs.map Op.free) = .ok (List.replicate qs.length (.flag false), r2) ∧
        r2.allocated = r.allocated ∧ r2.freed = r.freed + qs.length ∧ Inv n os b r2 := by
  induction qs with
  | nil => intro r hi _ _; exact ⟨r, by simp [run], rfl, rfl, hi⟩
  | cons q qs ih =>
    intro r hi hib hlen
    have hq := hib q (List.mem_cons_self _ _)
    have hfree := free_of_inBounds hq
    have hi1 := inv_free hi hfree
    have hst : step r (.free q) = .ok (.flag r.toRepoHeader.incFreed.1,
        { r with toRepoHeader := r.toRepoHeader.incFreed.2 }) := by
      simp [step, hfree]
    have hn := hi.n_lt
    simp only [List.length_cons] at hlen
    have hmod : (r.freed + 1) % UINT_MOD = r.freed + 1 := Nat.mod_eq_of_lt (by omega)
    rcases free_spec hi hfree with ⟨_, hc, _, _⟩ | ⟨hx, _, ha, hf⟩
    · rw [hmod] at hc; omega
    · obtain ⟨r2, hr, a2, f2, i2⟩ := ih _ hi1
        (fun x hxm => by
          rw [inBounds_of_inv hi hi1 x]; exact hib x (List.mem_cons_of_mem _ hxm))
        (by rw [hf]; omega)
      refine ⟨r2, ?_, by rw [a2, ha], by rw [f2, hf, List.length_cons]; omega, i2⟩
      rw [hx] at hst
      rw [List.map_cons, run_cons_of hst hr, List.length_cons, List.replicate_succ]

/-- A `free` returns `true` only as the last of as many frees as the repo has
slots, counted since the last reset. -/
theorem frees_before_reset {n os b : Nat} {r r1 : Repo} {ops : List Op} {l1 l3 : List Ret}
    (hi : Inv n os b r) (hb : 0 < b) (hn : 1 ≤ n)
    (h : run r ops = .ok (l1 ++ .flag true :: l3, r1)) :
    freesSinceReset r.freed l1 + 1 = n := by
  obtain ⟨ops1, op, ops3, ra, rb, _, h1, h2, _⟩ := run_split h
  have hia := inv_run hi h1
  obtain ⟨_, g⟩ := run_ghost hi hb h1
  have hlt := hia.n_lt
  cases op with
  | malloc sz =>
    obtain ⟨q, hx, _⟩ := step_malloc_ok h2
    cases hx
  | free q =>
    obtain ⟨y, hx, hm⟩ := step_free_ok h2
    injection hx with hx
    subst hx
    rcases free_spec hia hm with ⟨_, hc, _, _⟩ | ⟨hx, _, _, _⟩
    · rw [← g]
      rcases hia.freed_lt with hf | hf
      · rw [Nat.mod_eq_of_lt (by omega)] at hc
        exact hc
      · omega
    · cases hx

/-- C20 (counterexample): the repo of `Size = 4096` with the 48-byte header placed
at address 4096 and constructed with `objectSize = 8` has capacity 506; after
`k = 1` allocation and the free of that slot, which returns `false`, the next
`malloc(8)` does not return slot 1: the address `bufferStart + 8` fails the
alignment check. -/
theorem C20_counterexample_next_malloc_faults :
    ∃ r0 r2, Repo.new 4096 sizeofRepoHeader 4096 8 = .ok r0 ∧
      r0.getNumberOfObjects = 506 ∧
      run r0 [.malloc 8, .free 4144] = .ok ([.ptr 4144, .flag false], r2) ∧
      r2.getAllocated = 1 ∧ r2.getFreed = 1 ∧
      r2.malloc 8 = .fault .assertAlignment :=
  ⟨_, _, rfl, by decide, rfl, by decide, by decide, by decide⟩

/-- C20 (amended): for a repo whose buffer is smaller than `2^32` bytes and starts
at an `Alignment`-aligned non-null address and whose `objectSize` is a multiple
of `Alignment`, with capacity `n` and every `k` with `0 < k < n`: the first `k`
allocations return slots `0 .. k - 1`; freeing `k` of these addresses, in any
order, returns `false` every time; afterwards `isEmpty()` is false,
`allocated = freed = k`, and the next `malloc` returns slot `k`, not slot 0; and
in every history a `free` returns `true` only as the `n`-th free since the last
reset. -/
theorem C20_partial_drain_no_reset (Size hdr thisAddr objectSize k : Nat) (qs : List Nat)
    (hS : hdr ≤ Size) (hbuf : Size - hdr < UINT_MOD)
    (hal : objectSize % Alignment = 0) (hb : (thisAddr + hdr) % Alignment = 0)
    (hthis : 0 < thisAddr) (hk0 : 0 < k) (hkn : k < (Size - hdr) / objectSize)
    (hlen : qs.length = k)
    (hq : ∀ q ∈ qs, Ret.ptr q ∈
      (List.range k).map (fun i => Ret.ptr (thisAddr + hdr + i * objectSize))) :
    ∃ r0 r1 r2 r3, Repo.new Size hdr thisAddr objectSize = .ok r0 ∧
      r0.getNumberOfObjects = (Size - hdr) / objectSize ∧
      run r0 (List.replicate k (.malloc objectSize)) =
        .ok ((List.range k).map (fun i => Ret.ptr (r0.bufferStart + i * objectSize)), r1) ∧
      run r1 (qs.map Op.free) = .ok (List.replicate k (.flag false), r2) ∧
      r2.isEmpty = false ∧ r2.getAllocated = k ∧ r2.getFreed = k ∧
      r2.malloc objectSize = .ok (r0.bufferStart + k * objectSize, r3) ∧
      r0.bufferStart + k * objectSize ≠ r0.bufferStart ∧
      (∀ ops rets r l1 l3, run r0 ops = .ok (rets, r) → rets = l1 ++ .flag true :: l3 →
        freesSinceReset 0 l1 + 1 = r0.getNumberOfObjects) := by
  have hpos : 0 < objectSize := by
    rcases Nat.eq_zero_or_pos objectSize with hz | hz
    · rw [hz, Nat.div_zero] at hkn; omega
    · exact hz
  obtain ⟨r0, h0⟩ := new_ok_of_pos Size hdr thisAddr objectSize (by omega)
  obtain ⟨_, ha, hf, hm, _, ho, hn, hbs⟩ := new_ok_inv h0
  have hM : UINT_MOD < ULONG_MOD := by decide
  have hsub : (Size + ULONG_MOD - hdr) % ULONG_MOD = Size - hdr := by
    have e : Size + ULONG_MOD - hdr = (Size - hdr) + ULONG_MOD := by omega
    rw [e, Nat.add_mod_right, Nat.mod_eq_of_lt (by omega)]
  have hqle : (Size - hdr) / objectSize ≤ Size - hdr := Nat.div_le_self _ _
  rw [hsub, Nat.mod_eq_of_lt (by omega)] at hn
  have hi := inv_new h0
  have hle : objectSize ≤ Size - hdr := by
    by_contra hc
    rw [Nat.div_eq_of_lt (by omega)] at hkn
    omega
  have hos : r0.objectSize = objectSize := by rw [ho, Nat.mod_eq_of_lt (by omega)]
  rw [hn, hos] at hi
  have hw : ((Size - hdr) / objectSize - 1) * objectSize < UINT_MOD := by
    have h1 : ((Size - hdr) / objectSize - 1) * objectSize ≤
        (Size - hdr) / objectSize * objectSize := Nat.mul_le_mul_right _ (by omega)
    have h2 := Nat.div_mul_le_self (Size - hdr) objectSize
    omega
  have hb1 : r0.bufferStart % Alignment = 0 := by rw [hbs]; exact hb
  have hbpos : 0 < r0.bufferStart := by rw [hbs]; omega
  obtain ⟨r1, hr1, a1, f1, hi1⟩ := run_mallocs hw hb1 hal k r0 hi (by omega)
  rw [ha] at hr1 a1
  simp only [Nat.zero_add] at hr1 a1
  obtain ⟨_, _, ib⟩ := run_mallocs_ok k r0 r1 _ hi (by omega) hr1
  rw [hbs] at ib
  obtain ⟨r2, hr2, a2, f2, hi2⟩ := run_frees_false qs r1 hi1
    (fun q hqm => by rw [inBounds_of_inv hi hi1 q]; exact ib q (hq q hqm))
    (by rw [f1, hf, hlen]; omega)
  rw [hlen] at hr2 f2
  rw [a1] at a2
  rw [f1, hf, Nat.zero_add] at f2
  have hslot := malloc_slot hi2 (by omega) hw hb1 hal
  rw [a2] at hslot
  refine ⟨r0, r1, r2, _, h0, hn, hr1, hr2, ?_, a2, f2, hslot, ?_, ?_⟩
  · have h1 : r2.freed ≠ r2.numberOfObjects := by rw [f2, hi2.nobj]; omega
    have h2 : r2.allocated ≠ 0 := by omega
    simp [RepoHeader.isEmpty, h1, h2]
  · have : 0 < k * objectSize := Nat.mul_pos hk0 hpos
    omega
  · intro ops rets r l1 l3 hrun he
    rw [he] at hrun
    have := frees_before_reset hi hbpos (by omega) hrun
    rw [hf] at this
    rw [this]
    exact hn.symm

/-- C20 (witness): the scenario `Size = 4096`, 48-byte header, `objectSize = 64`
at address 4096 with `k = 2`, the two slots freed in reverse order. -/
theorem C20_partial_drain_no_reset_witness :
    (sizeofRepoHeader ≤ 4096 ∧ 4096 - sizeofRepoHeader < UINT_MOD ∧ 64 % Alignment = 0 ∧
      (4096 + sizeofRepoHeader) % Alignment = 0 ∧ 0 < 4096 ∧ 0 < 2 ∧
      2 < (4096 - sizeofRepoHeader) / 64 ∧ [4208, 4144].length = 2 ∧
      ∀ q ∈ [4208, 4144], Ret.ptr q ∈
        (List.range 2).map (fun i => Ret.ptr (4096 + sizeofRepoHeader + i * 64))) ∧
    ∃ r0 r1 r2 r3, Repo.new 4096 sizeofRepoHeader 4096 64 = .ok r0 ∧
      r0.getNumberOfObjects = (4096 - sizeofRepoHeader) / 64 ∧
      run r0 (List.replicate 2 (.malloc 64)) =
        .ok ((List.range 2).map (fun i => Ret.ptr (r0.bufferStart + i * 64)), r1) ∧
      run r1 ([4208, 4144].map Op.free) = .ok (List.replicate 2 (.flag false), r2) ∧
      r2.isEmpty = false ∧ r2.getAllocated = 2 ∧ r2.getFreed = 2 ∧
      r2.malloc 64 = .ok (r0.bufferStart + 2 * 64, r3) ∧
      r0.bufferStart + 2 * 64 ≠ r0.bufferStart ∧
      (∀ ops rets r l1 l3, run r0 ops = .ok (rets, r) → rets = l1 ++ .flag true :: l3 →
        freesSinceReset 0 l1 + 1 = r0.getNumberOfObjects) :=
  ⟨⟨by decide, by decide, by decide, by decide, by decide, by decide, by decide, by decide,
      by decide⟩,
    C20_partial_drain_no_reset 4096 sizeofRepoHeader 4096 64 2 [4208, 4144] (by decide)
      (by decide) (by decide) (by decide) (by decide) (by decide) (by decide) (by decide)
      (by decide)⟩

end Scalene
